import Mathlib

/-!
# rdf_triples_to_neo4j: import and validation workflow

A shallow embedding of `src/rdf_loader.go` and `src/main.go`.

* Go `error` values are identified with their message (`err.Error()`); a nil
  error is `none`.
* The database server, the file system and the `path/filepath` package are
  outside the repository. They enter as the fields of `Env`: the server is an
  oracle answering the n-th executed statement, `PathOps` stands for
  `filepath.Abs`, `filepath.Join` and `filepath.Base` of the host platform.
* Effects are recorded in a chronological trace of `Event`s carried by
  `World`; every `log.Printf`/`log.Println` site is one constructor of
  `LogEntry`, and `LogEntry.render` gives the formatted text.
* A Go run-time panic (failed type assertion, index out of range) is the
  `panicked` case of `Completion`.
-/

deriving instance DecidableEq for Except

namespace RdfLoader

/-! ## Values, records and result streams of the driver -/

/-- A Go `error`, identified with its message. -/
abbrev Error := String

/-- Outcome of a Go call: it returns a value or it panics. -/
inductive Completion (α : Type) where
  | returned (a : α)
  | panicked (msg : String)
  deriving DecidableEq, Repr

/-- A dynamically typed value (`any`) found in a record. `int` is an `int64`,
kept as an integer: the loader only compares it with 0 and prints it. `other`
stands for a value of any further type (float, list, map, node ...) and
carries its `%v` rendering. -/
inductive Value where
  | null
  | bool (b : Bool)
  | int (n : Int)
  | str (s : String)
  | other (shown : String)
  deriving DecidableEq, Repr

/-- The verb `%v` of package `fmt` applied to a record value. -/
def Value.fmtV : Value → String
  | .null => "<nil>"
  | .bool b => if b then "true" else "false"
  | .int n => toString n
  | .str s => s
  | .other shown => shown

/-- The verb `%v` applied to an `error` interface value. -/
def fmtErr : Option Error → String
  | none => "<nil>"
  | some e => e

/-- The driver's `neo4j.Record`: column names and the values in column order. -/
structure Record where
  Keys : List String
  Values : List Value
  deriving DecidableEq, Repr

/-- Position of the first key equal to `key`. -/
def keyIndex (key : String) : List String → Option Nat
  | [] => none
  | k :: ks => if key = k then some 0 else (keyIndex key ks).map Nat.succ

/-- The driver's `Record.Get`: the value of the first column named `key` and
`true`, or `(nil, false)` when no column has that name. -/
def Record.Get (r : Record) (key : String) : Value × Bool :=
  match keyIndex key r.Keys with
  | some i => (r.Values.getD i Value.null, true)
  | none => (Value.null, false)

/-- The driver's result stream: the records still to be delivered and the
failure (if any) the stream reports once they are used up. -/
structure Result where
  records : List Record
  err : Option Error
  deriving DecidableEq, Repr

/-- The driver's `Result.Next` followed by `Result.Record`: the next record when
there is one (`Next` gives `true`), together with the advanced stream. -/
def Result.Next (res : Result) : Option Record × Result :=
  match res.records with
  | [] => (none, res)
  | r :: rest => (some r, { res with records := rest })

/-- The driver's `Result.Single`: the only record of the stream; an error when
the stream has no record, more than one record, or fails. -/
def Result.Single (res : Result) : Except Error Record :=
  match res.records with
  | [] =>
    match res.err with
    | some e => .error e
    | none => .error "Result contains no more records"
  | [r] =>
    match res.err with
    | some e => .error e
    | none => .ok r
  | _ :: _ :: _ => .error "Result contains more than one record"

/-! ## Paths -/

/-- The functions of `path/filepath` used by the loader. -/
structure PathOps where
  Abs : String → Except Error String
  Join : String → String → String
  Base : String → String

namespace Unix

/-- Split at every `/`. -/
def splitSlash : List Char → List (List Char)
  | [] => [[]]
  | c :: cs =>
    match splitSlash cs with
    | [] => [[]]
    | seg :: segs => if c = '/' then [] :: seg :: segs else (c :: seg) :: segs

/-- One step of lexical cleaning on the stack of kept elements (top first). -/
def cleanStep (rooted : Bool) (stack : List (List Char)) (seg : List Char) :
    List (List Char) :=
  if seg = [] ∨ seg = ['.'] then stack
  else if seg = ['.', '.'] then
    match stack with
    | [] => if rooted then [] else [seg]
    | top :: below => if top = ['.', '.'] then seg :: top :: below else below
  else seg :: stack

/-- `filepath.Clean` on a Unix host, on character lists. -/
def cleanChars (p : List Char) : List Char :=
  let rooted := p.head? = some '/'
  let kept := ((splitSlash p).foldl (cleanStep rooted) []).reverse
  let body := List.intercalate ['/'] kept
  let out := if rooted then '/' :: body else body
  if out = [] then ['.'] else out

/-- `filepath.Clean` on a Unix host. -/
def Clean (p : String) : String := String.mk (cleanChars p.data)

/-- Drop the separators at the end of a reversed path. -/
def dropSlashes : List Char → List Char
  | [] => []
  | c :: cs => if c = '/' then dropSlashes cs else c :: cs

/-- The characters before the first separator. -/
def untilSlash : List Char → List Char
  | [] => []
  | c :: cs => if c = '/' then [] else c :: untilSlash cs

/-- `filepath.Base` on a Unix host. -/
def Base (p : String) : String :=
  if p = "" then "."
  else
    let last := (untilSlash (dropSlashes p.data.reverse)).reverse
    if last = [] then "/" else String.mk last

/-- `filepath.Join` of two elements on a Unix host. -/
def Join (a b : String) : String :=
  if a ≠ "" then Clean (a ++ "/" ++ b)
  else if b ≠ "" then Clean b
  else ""

/-- `filepath.Abs` on a Unix host; `cwd` is the result of `os.Getwd`. -/
def Abs (cwd : Except Error String) (p : String) : Except Error String :=
  if p.data.head? = some '/' then .ok (Clean p)
  else
    match cwd with
    | .error e => .error e
    | .ok wd => .ok (Join wd p)

/-- The path functions of a Unix host whose `os.Getwd` gives `cwd`. -/
def ops (cwd : Except Error String) : PathOps :=
  { Abs := Abs cwd, Join := Join, Base := Base }

end Unix

/-- `strings.ReplaceAll(s, "\\", "/")`. -/
def backslashesToSlashes (s : String) : String :=
  String.mk (s.data.map fun c => if c = '\\' then '/' else c)

/-- `RDFLoader.getFileURI` (rdf_loader.go:65-76). -/
def getFileURI (path : PathOps) (filePath containerMount : String) :
    Except Error String :=
  match path.Abs filePath with
  | .error err => .error err
  | .ok absPath =>
    let absPath :=
      if containerMount ≠ "" then path.Join containerMount (path.Base absPath)
      else absPath
    .ok ("file://" ++ backslashesToSlashes absPath)

/-! ## Effects -/

/-- The log call sites of the program, with their arguments. -/
inductive LogEntry where
  /-- Call site rdf_loader.go:99. -/
  | attemptFailed (attempt maxRetries : Nat) (err : Error)
  /-- Call site rdf_loader.go:158. -/
  | validationError (v : Value)
  /-- Call site main.go:74. -/
  | databaseInitialized
  /-- Call site main.go:84. -/
  | noFilesFound (inputDir : String)
  /-- Call site main.go:93. -/
  | importError (base : String) (err : Error)
  /-- Call site main.go:97. -/
  | importSucceeded (base message : String)
  /-- Call site main.go:99. -/
  | importFailed (base message : String)
  /-- Call site main.go:106. -/
  | validationFailed (err : Error)
  /-- Call site main.go:108. -/
  | validationPassed
  deriving DecidableEq, Repr

/-- The formatted text of a log line (without the logger's time stamp). -/
def LogEntry.render : LogEntry → String
  | .attemptFailed attempt maxRetries err =>
    "Attempt " ++ toString attempt ++ "/" ++ toString maxRetries ++ " failed: " ++ err
  | .validationError v => "Validation error: " ++ v.fmtV
  | .databaseInitialized => "Database initialized"
  | .noFilesFound inputDir => "No .ttl files found in " ++ inputDir
  | .importError base err => "❌ Error importing " ++ base ++ ": " ++ err
  | .importSucceeded base message => "✅ " ++ base ++ ": " ++ message
  | .importFailed base message => "❌ " ++ base ++ ": " ++ message
  | .validationFailed err => "❌ Validation failed: " ++ err
  | .validationPassed => "✅ Validation passed"

/-- What the program does to the outside, in order of occurrence. `call` marks
a call of a loader method made by `importRDF`. -/
inductive Event where
  | newSession (id : Nat)
  | closeSession (id : Nat)
  | run (session : Nat) (query : String)
  | sleep (seconds : Nat)
  | log (entry : LogEntry)
  | call (method : String) (arg : String)
  | closeDriver
  deriving DecidableEq, Repr

/-- The state threaded through the program: the events so far, the number of
sessions opened so far (the next session id) and the number of statements
executed so far. -/
structure World where
  trace : List Event
  sessions : Nat
  statements : Nat
  deriving DecidableEq, Repr

/-- The state at process start. -/
def World.init : World := { trace := [], sessions := 0, statements := 0 }

/-- Credentials chosen by `connectToNeo4j`. -/
inductive Auth where
  | noAuth
  | basic (username password realm : String)
  deriving DecidableEq, Repr

/-- The collaborators outside the repository: path functions, `filepath.Glob`,
`neo4j.NewDriverWithContext` (its error, if any) and the server, which answers
the statement executed as number `n` (counting from 0) with `run n query`. -/
structure Env where
  path : PathOps
  glob : String → Except Error (List String)
  newDriver : String → Auth → Option Error
  run : Nat → String → Except Error Result

/-- Append an event. -/
def World.emit (w : World) (e : Event) : World :=
  { w with trace := w.trace ++ [e] }

/-- `driver.NewSession`: the new session has id `w.sessions`. -/
def World.newSession (w : World) : World :=
  { w with trace := w.trace ++ [Event.newSession w.sessions], sessions := w.sessions + 1 }

/-- `session.Close`. -/
def World.closeSession (w : World) (id : Nat) : World :=
  w.emit (Event.closeSession id)

/-- `session.Run` as seen by the world; the answer is `env.run w.statements query`. -/
def World.run (w : World) (session : Nat) (query : String) : World :=
  { w with trace := w.trace ++ [Event.run session query], statements := w.statements + 1 }

/-- Run the deferred `session.Close` calls, last deferred first. -/
def runDeferred : List Nat → World → World
  | [], w => w
  | id :: rest, w => runDeferred rest (w.closeSession id)

/-! ## The loader (rdf_loader.go) -/

/-- The struct `ImportResult`. -/
structure ImportResult where
  Success : Bool
  Message : String
  deriving DecidableEq, Repr

/-- The zero value `ImportResult{}`. -/
def ImportResult.zero : ImportResult := { Success := false, Message := "" }

/-- The constant `maxRetries` of `LoadTriples`. -/
def maxRetries : Nat := 3

/-- The import statement built at rdf_loader.go:91-94. -/
def importQuery (fileURI : String) : String :=
  "CALL n10s.rdf.import.fetch('" ++ fileURI ++ "', 'Turtle', \x7bnodeCacheSize: 15000\x7d);"

/-- The loop of `LoadTriples` (rdf_loader.go:82-126) with `remaining` iterations
to go, so that `attempt = maxRetries - remaining`. `deferred` is the stack of
sessions whose `Close` is deferred. The result is what the function is about to
return, before the deferred calls run. -/
def LoadTriples.loop (env : Env) (filePath containerMount : String) :
    Nat → Option Error → List Nat → World →
      Completion (ImportResult × Option Error) × List Nat × World
  | 0, lastErr, deferred, w =>
    (.returned (ImportResult.zero,
        some ("failed after " ++ toString maxRetries ++ " attempts: " ++ fmtErr lastErr)),
      deferred, w)
  | remaining + 1, lastErr, deferred, w =>
    let attempt := maxRetries - (remaining + 1)
    let session := w.sessions
    let w := w.newSession
    let deferred := session :: deferred
    match getFileURI env.path filePath containerMount with
    | .error err => (.returned (ImportResult.zero, some err), deferred, w)
    | .ok fileURI =>
      let query := importQuery fileURI
      let answer := env.run w.statements query
      let w := w.run session query
      match answer with
      | .error err =>
        let w := w.emit (.log (.attemptFailed (attempt + 1) maxRetries err))
        let w := w.emit (.sleep 1)
        LoadTriples.loop env filePath containerMount remaining (some err) deferred w
      | .ok result =>
        match result.Single with
        | .error err => (.returned (ImportResult.zero, some err), deferred, w)
        | .ok record =>
          match (record.Get "triplesLoaded").1 with
          | .int triplesLoaded =>
            if triplesLoaded > 0 then
              (.returned ({ Success := true,
                            Message := toString triplesLoaded ++ " triples loaded" }, none),
                deferred, w)
            else
              let extraInfo := record.Get "extraInfo"
              if extraInfo.2 then
                (.returned ({ Success := false,
                              Message := "No triples loaded. Extra info: " ++ extraInfo.1.fmtV },
                            none),
                  deferred, w)
              else
                LoadTriples.loop env filePath containerMount remaining lastErr deferred w
          | _ => (.panicked "interface conversion: interface is not int64", deferred, w)

/-- `RDFLoader.LoadTriples` (rdf_loader.go:78-127). -/
def LoadTriples (env : Env) (filePath containerMount : String) (w : World) :
    Completion (ImportResult × Option Error) × World :=
  let out := LoadTriples.loop env filePath containerMount maxRetries none [] w
  (out.1, runDeferred out.2.1 out.2.2)

/-- The first statement of `ValidateGraph` (rdf_loader.go:139). -/
def dropShapesQuery : String := "CALL n10s.validation.shacl.dropShapes();"

/-- The second statement of `ValidateGraph` (rdf_loader.go:140). -/
def importShapesQuery (fileURI : String) : String :=
  "CALL n10s.validation.shacl.import.fetch('" ++ fileURI ++ "','Turtle');"

/-- The third statement of `ValidateGraph` (rdf_loader.go:141). -/
def validateQuery : String :=
  "CALL n10s.validation.shacl.validate() yield focusNode, nodeType, offendingValue, resultPath, resultMessage, severity;"

/-- The columns named by the `yield` clause of `validateQuery`, in order. -/
def validateColumns : List String :=
  ["focusNode", "nodeType", "offendingValue", "resultPath", "resultMessage", "severity"]

/-- The loop `for result.Next(l.ctx)` of `ValidateGraph` (rdf_loader.go:156-160)
over the records the stream still holds; gives the final `hasViolations`. -/
def ValidateGraph.violations : List Record → Bool → World → Completion Bool × World
  | [], hasViolations, w => (.returned hasViolations, w)
  | record :: rest, _, w =>
    match record.Values.get? 5 with
    | none => (.panicked "index out of range [5]", w)
    | some v => ValidateGraph.violations rest true (w.emit (.log (.validationError v)))

/-- The loop `for i, query := range queries` of `ValidateGraph`
(rdf_loader.go:144-165), at index `i` with the statements still to run. -/
def ValidateGraph.loop (env : Env) (session : Nat) :
    Nat → List String → World → Completion (Option Error) × World
  | _, [], w => (.returned none, w)
  | i, query :: rest, w =>
    let answer := env.run w.statements query
    let w := w.run session query
    match answer with
    | .error err => (.returned (some err), w)
    | .ok result =>
      if i == 1 && result.Next.1.isNone then
        (.returned (some "failed to load constraints file"), w)
      else if i == 2 then
        let out := ValidateGraph.violations result.records false w
        match out.1 with
        | .panicked msg => (.panicked msg, out.2)
        | .returned hasViolations =>
          if hasViolations then (.returned (some "SHACL validation failed"), out.2)
          else ValidateGraph.loop env session (i + 1) rest out.2
      else ValidateGraph.loop env session (i + 1) rest w

/-- `RDFLoader.ValidateGraph` (rdf_loader.go:129-168). -/
def ValidateGraph (env : Env) (schemaFile containerMount : String) (w : World) :
    Completion (Option Error) × World :=
  let session := w.sessions
  let w := w.newSession
  let out : Completion (Option Error) × World :=
    match getFileURI env.path schemaFile containerMount with
    | .error err => (.returned (some err), w)
    | .ok fileURI =>
      ValidateGraph.loop env session 0
        [dropShapesQuery, importShapesQuery fileURI, validateQuery] w
  (out.1, out.2.closeSession session)

/-- The statements of `InitializeDatabase` (rdf_loader.go:51-55). -/
def initQueries : List String :=
  ["MATCH (n) DETACH DELETE n;",
   "CALL n10s.graphconfig.init(\x7bhandleVocabUris: 'IGNORE'\x7d);",
   "CREATE CONSTRAINT n10s_unique_uri IF NOT EXISTS FOR (r:Resource) REQUIRE r.uri IS UNIQUE;"]

/-- The loop of `InitializeDatabase` (rdf_loader.go:57-61). -/
def InitializeDatabase.loop (env : Env) (session : Nat) :
    List String → World → Option Error × World
  | [], w => (none, w)
  | query :: rest, w =>
    let answer := env.run w.statements query
    let w := w.run session query
    match answer with
    | .error err => (some err, w)
    | .ok _ => InitializeDatabase.loop env session rest w

/-- `RDFLoader.InitializeDatabase` (rdf_loader.go:47-63). -/
def InitializeDatabase (env : Env) (w : World) : Option Error × World :=
  let session := w.sessions
  let w := w.newSession
  let out := InitializeDatabase.loop env session initQueries w
  (out.1, out.2.closeSession session)

/-- `connectToNeo4j` (rdf_loader.go:39-45): the error of the driver constructor. -/
def connectToNeo4j (env : Env) (uri username password : String) : Option Error :=
  let auth :=
    if username ≠ "" ∧ password ≠ "" then Auth.basic username password "" else Auth.noAuth
  env.newDriver uri auth

/-- `NewRDFLoader` (rdf_loader.go:24-33): `none` when the loader was built. -/
def NewRDFLoader (env : Env) (uri username password : String) : Option Error :=
  match connectToNeo4j env uri username password with
  | some err => some ("failed to connect to Neo4j: " ++ err)
  | none => none

/-! ## The command (main.go) -/

/-- What `importRDF` reads from its `cli.Context`: the positional arguments and
the flag values. -/
structure Context where
  args : List String
  neo4jUri : String
  username : String
  password : String
  schemaFile : String
  containerMount : String
  initDatabase : Bool

/-- The loop `for _, file := range files` of `importRDF` (main.go:90-101). -/
def importRDF.files (env : Env) (containerMount : String) :
    List String → World → Completion Unit × World
  | [], w => (.returned (), w)
  | file :: rest, w =>
    let out := LoadTriples env file containerMount (w.emit (.call "LoadTriples" file))
    match out.1 with
    | .panicked msg => (.panicked msg, out.2)
    | .returned (_, some err) =>
      importRDF.files env containerMount rest
        (out.2.emit (.log (.importError (env.path.Base file) err)))
    | .returned (result, none) =>
      if result.Success then
        importRDF.files env containerMount rest
          (out.2.emit (.log (.importSucceeded (env.path.Base file) result.Message)))
      else
        importRDF.files env containerMount rest
          (out.2.emit (.log (.importFailed (env.path.Base file) result.Message)))

/-- The optional validation at the end of `importRDF` (main.go:104-112). -/
def importRDF.validate (env : Env) (c : Context) (w : World) :
    Completion (Option Error) × World :=
  if c.schemaFile ≠ "" then
    let out := ValidateGraph env c.schemaFile c.containerMount
      (w.emit (.call "ValidateGraph" c.schemaFile))
    match out.1 with
    | .panicked msg => (.panicked msg, out.2)
    | .returned (some err) => (.returned none, out.2.emit (.log (.validationFailed err)))
    | .returned none => (.returned none, out.2.emit (.log .validationPassed))
  else (.returned none, w)

/-- The part of `importRDF` after the database initialisation (main.go:77-112). -/
def importRDF.discover (env : Env) (c : Context) (inputDir : String) (w : World) :
    Completion (Option Error) × World :=
  match env.glob (env.path.Join inputDir "*.ttl") with
  | .error err => (.returned (some ("failed to read directory: " ++ err)), w)
  | .ok files =>
    if files.length = 0 then
      (.returned none, w.emit (.log (.noFilesFound inputDir)))
    else
      let out := importRDF.files env c.containerMount files w
      match out.1 with
      | .panicked msg => (.panicked msg, out.2)
      | .returned _ => importRDF.validate env c out.2

/-- The part of `importRDF` that runs with the loader open (main.go:70-112). -/
def importRDF.withLoader (env : Env) (c : Context) (inputDir : String) (w : World) :
    Completion (Option Error) × World :=
  if c.initDatabase then
    let out := InitializeDatabase env (w.emit (.call "InitializeDatabase" ""))
    match out.1 with
    | some err => (.returned (some ("failed to initialize database: " ++ err)), out.2)
    | none => importRDF.discover env c inputDir (out.2.emit (.log .databaseInitialized))
  else importRDF.discover env c inputDir w

/-- The command action `importRDF` (main.go:58-113). -/
def importRDF (env : Env) (c : Context) (w : World) : Completion (Option Error) × World :=
  if c.args.length ≠ 1 then
    (.returned (some "please provide the input directory path"), w)
  else
    let inputDir := c.args.headD ""
    match NewRDFLoader env c.neo4jUri c.username c.password with
    | some err => (.returned (some err), w)
    | none =>
      let out := importRDF.withLoader env c inputDir w
      (out.1, out.2.emit .closeDriver)

/-! ## Observations on traces and answers -/

/-- The event is a statement execution (`session.Run`). -/
def Event.isRun : Event → Bool
  | .run _ _ => true
  | _ => false

/-- The event is a back-off wait (`time.Sleep`). -/
def Event.isSleep : Event → Bool
  | .sleep _ => true
  | _ => false

/-- Number of statement executions in a trace. -/
def runCount (evs : List Event) : Nat := evs.countP Event.isRun

/-- Number of back-off waits in a trace. -/
def sleepCount (evs : List Event) : Nat := evs.countP Event.isSleep

/-- The server answers with a transport error. -/
def TransportError (answer : Except Error Result) : Prop :=
  ∃ err, answer = .error err

/-- The server answers with a stream from which `Single` reads the record `r`. -/
def SingleRecord (answer : Except Error Result) (r : Record) : Prop :=
  ∃ result, answer = .ok result ∧ result.Single = .ok r

/-- The answer is a single record with `triplesLoaded = 0` and no `extraInfo`
column. -/
def Ambiguous (answer : Except Error Result) : Prop :=
  ∃ r, SingleRecord answer r ∧ (r.Get "triplesLoaded").1 = Value.int 0 ∧
    (r.Get "extraInfo").2 = false

/-- The answer is not definitive: a transport error or an ambiguous record. -/
def NonDefinitive (answer : Except Error Result) : Prop :=
  TransportError answer ∨ Ambiguous answer

/-- The sessions open after an event, given those open before it. -/
def sessionStep (live : List Nat) : Event → List Nat
  | .newSession id => id :: live
  | .closeSession id => live.erase id
  | _ => live

/-- The largest number of sessions open at the same time while the events
happen, starting with the sessions `live` open. -/
def peakOpenFrom (live : List Nat) : List Event → Nat
  | [] => live.length
  | e :: rest => max live.length (peakOpenFrom (sessionStep live e) rest)

/-- The largest number of sessions open at the same time during a trace. -/
def peakOpen (evs : List Event) : Nat := peakOpenFrom [] evs

/-- The sessions still open at the end of a trace. -/
def openAtEnd (evs : List Event) : List Nat := evs.foldl sessionStep []

/-- The record has the columns of the `yield` clause of `validateQuery`, with
one value per column. -/
def Record.IsViolation (r : Record) : Prop :=
  r.Keys = validateColumns ∧ r.Values.length = r.Keys.length

/-- The values written by the `Validation error` log lines of a trace, in order. -/
def validationLogs (evs : List Event) : List Value :=
  evs.filterMap fun e =>
    match e with
    | .log (.validationError v) => some v
    | _ => none

/-- The resolved URI in the words of the specification: the file scheme marker,
then the absolute path, or the mount override joined with the base name of the
absolute path when the override is not empty, with every backslash turned into
a forward slash; an error when the absolute path cannot be computed. -/
def resolvedURISpec (path : PathOps) (filePath mountOverride : String) :
    Except Error String :=
  match path.Abs filePath with
  | .error err => .error err
  | .ok a =>
    let s := if mountOverride = "" then a else path.Join mountOverride (path.Base a)
    .ok ("file://" ++ String.mk (s.data.map fun c => if c = '\\' then '/' else c))

/-- What `importRDF` does for a file, as seen in a trace: the call of
`LoadTriples` with the file, and the outcome line with the file's base name. -/
inductive Mark where
  | called (file : String)
  | reported (base : String)
  deriving DecidableEq, Repr

/-- The `LoadTriples` calls and the per-file outcome lines of a trace, in order. -/
def importMarks (evs : List Event) : List Mark :=
  evs.filterMap fun e =>
    match e with
    | .call method arg => if method = "LoadTriples" then some (.called arg) else none
    | .log (.importError base _) => some (.reported base)
    | .log (.importSucceeded base _) => some (.reported base)
    | .log (.importFailed base _) => some (.reported base)
    | _ => none

/-- The schema files of the `ValidateGraph` calls of a trace, in order. -/
def validateCalls (evs : List Event) : List String :=
  evs.filterMap fun e =>
    match e with
    | .call method arg => if method = "ValidateGraph" then some arg else none
    | _ => none

/-- One call followed by one outcome line for each file, in the order of the
files. -/
def marksFor (base : String → String) : List String → List Mark
  | [] => []
  | file :: rest => .called file :: .reported (base file) :: marksFor base rest

/-- The event is neither a call of `LoadTriples` or `ValidateGraph` nor a
per-file outcome line. -/
def Event.isQuiet : Event → Bool
  | .call method _ => method ≠ "LoadTriples" && method ≠ "ValidateGraph"
  | .log (.importError _ _) => false
  | .log (.importSucceeded _ _) => false
  | .log (.importFailed _ _) => false
  | _ => true

/-- The world `w1` continues `w` by quiet events only. -/
def Quiet (w w1 : World) : Prop :=
  ∃ evs, w1.trace = w.trace ++ evs ∧ ∀ e ∈ evs, e.isQuiet = true

/-- The server's answers have the types the loader relies on: a record read by
`Single` from the answer to an import statement has an integer `triplesLoaded`,
and the records answering the validate statement have the yielded columns. -/
def WellTyped (env : Env) : Prop :=
  (∀ n uri result r, env.run n (importQuery uri) = .ok result → result.Single = .ok r →
    ∃ t, (r.Get "triplesLoaded").1 = Value.int t) ∧
  (∀ n result, env.run n validateQuery = .ok result → ∀ r ∈ result.records, r.IsViolation)

/-- The sessions opened in a trace, in order. -/
def openedSessions (evs : List Event) : List Nat :=
  evs.filterMap fun e =>
    match e with
    | .newSession id => some id
    | _ => none

/-- The sessions closed in a trace, in order. -/
def closedSessions (evs : List Event) : List Nat :=
  evs.filterMap fun e =>
    match e with
    | .closeSession id => some id
    | _ => none

/-- The outcome line `importRDF` writes for a file once `LoadTriples` has
returned `res`: the error line for a non-nil error, else the success or the
failure line with the result's message. -/
def outcomeEntry (base : String) (res : ImportResult × Option Error) : LogEntry :=
  match res.2 with
  | some err => .importError base err
  | none =>
    if res.1.Success then .importSucceeded base res.1.Message
    else .importFailed base res.1.Message

/-- The line `importRDF` writes for what `ValidateGraph` returned. -/
def validationEntry : Option Error → LogEntry
  | some err => .validationFailed err
  | none => .validationPassed

/-- From the world `w`, the files are imported one at a time and in order: for
each file `LoadTriples` runs once, in the world the earlier files left behind,
it returns some `res`, and exactly one outcome line, the one for `res`, is
written before the next file starts; `w1` is the world after the last file. -/
def ImportedInOrder (env : Env) (mount : String) : List String → World → World → Prop
  | [], w, w1 => w1 = w
  | file :: rest, w, w1 =>
    ∃ res, (LoadTriples env file mount (w.emit (.call "LoadTriples" file))).1 = .returned res ∧
      ImportedInOrder env mount rest
        ((LoadTriples env file mount (w.emit (.call "LoadTriples" file))).2.emit
          (.log (outcomeEntry (env.path.Base file) res))) w1

/-- The world in which `importRDF` starts the imports: after the database
initialisation and its log line when the flag is set, else unchanged. -/
def worldAfterSetup (env : Env) (c : Context) (w : World) : World :=
  if c.initDatabase then
    (InitializeDatabase env (w.emit (.call "InitializeDatabase" ""))).2.emit
      (.log .databaseInitialized)
  else w

/-- The text of the log lines of a trace, in order. -/
def logLines (evs : List Event) : List String :=
  evs.filterMap fun e =>
    match e with
    | .log entry => some entry.render
    | _ => none

/-- The statements executed in a trace, in order. -/
def runQueries (evs : List Event) : List String :=
  evs.filterMap fun e =>
    match e with
    | .run _ query => some query
    | _ => none

/-! ## Concrete inputs -/

/-- A server that answers the executed statements from a script, in order, and
refuses every statement after the script's end. -/
def scriptedEnv (files : List String) (answers : List (Except Error Result)) : Env where
  path := Unix.ops (.ok "/data")
  glob := fun _ => .ok files
  newDriver := fun _ _ => none
  run := fun n _ => answers.getD n (.error "connection closed")

/-- A stream with the given records that ends without failure. -/
def streamOf (records : List Record) : Except Error Result :=
  .ok { records := records, err := none }

/-- An import record that reports `t` loaded triples and has no `extraInfo`. -/
def loadedRecord (t : Int) : Record :=
  { Keys := ["terminationStatus", "triplesLoaded"], Values := [.str "OK", .int t] }

/-- An import record that reports `t` loaded triples with `extraInfo = info`. -/
def infoRecord (t : Int) (info : String) : Record :=
  { Keys := ["terminationStatus", "triplesLoaded", "extraInfo"],
    Values := [.str "KO", .int t, .str info] }

/-- Three transport errors in a row. -/
def envAllFail : Env :=
  scriptedEnv [] [.error "timeout 1", .error "timeout 2", .error "timeout 3"]

/-- The first attempt loads five triples. -/
def envFirstLoads : Env := scriptedEnv [] [streamOf [loadedRecord 5]]

/-- Two transport errors, then zero triples with `extraInfo`. -/
def envThirdExplains : Env :=
  scriptedEnv [] [.error "timeout 1", .error "timeout 2", streamOf [infoRecord 0 "bad syntax"]]

/-- Three answers with zero triples and no `extraInfo`. -/
def envAllAmbiguous : Env :=
  scriptedEnv [] [streamOf [loadedRecord 0], streamOf [loadedRecord 0], streamOf [loadedRecord 0]]

/-- One transport error, then ten triples loaded. -/
def envSecondLoads : Env := scriptedEnv [] [.error "timeout 1", streamOf [loadedRecord 10]]

/-- A violation record as yielded by `validateQuery`. -/
def violationRecord (focusNode resultMessage severity : String) : Record :=
  { Keys := validateColumns,
    Values := [.str focusNode, .str "Person", .null, .str "name", .str resultMessage,
               .str severity] }

/-- A row of the shape import. -/
def shapeRow : Record :=
  { Keys := ["target", "propertyOrRelationshipPath", "param", "value"],
    Values := [.str "Person", .str "name", .str "minCount", .int 1] }

/-- Validation against loaded shapes that yields two violation records. -/
def envTwoViolations : Env :=
  scriptedEnv [] [streamOf [], streamOf [shapeRow],
    streamOf [violationRecord "n1" "name is required" "sh:Violation",
              violationRecord "n2" "age must be positive" "sh:Warning"]]

/-- Validation against loaded shapes that yields no violation record. -/
def envNoViolations : Env :=
  scriptedEnv [] [streamOf [], streamOf [shapeRow], streamOf []]

/-- The shape import yields no row. -/
def envNoShapes : Env := scriptedEnv [] [streamOf [], streamOf []]

/-- A server that loads ten triples from `a.ttl`, none from `b.ttl` (with an
explanation), has two shape rows for `shapes.ttl` and answers every other
statement with an empty stream. The input directory `in` holds the two files. -/
def envTwoFiles : Env where
  path := Unix.ops (.ok "/data")
  glob := fun pattern => if pattern = "in/*.ttl" then .ok ["in/a.ttl", "in/b.ttl"] else .ok []
  newDriver := fun _ _ => none
  run := fun _ q =>
    if q = importQuery "file:///uprise-outputs/a.ttl" then streamOf [loadedRecord 10]
    else if q = importQuery "file:///uprise-outputs/b.ttl" then
      streamOf [infoRecord 0 "empty file"]
    else if q = importShapesQuery "file:///uprise-outputs/shapes.ttl" then
      streamOf [shapeRow, shapeRow]
    else streamOf []

/-- The command line `rdf-import --schema-file shapes.ttl in` with the default
flag values. -/
def ctxTwoFiles : Context :=
  { args := ["in"], neo4jUri := "bolt://localhost:7687", username := "neo4j",
    password := "password", schemaFile := "shapes.ttl", containerMount := "/uprise-outputs",
    initDatabase := true }

/-! # Theorems -/

/-! ## Basic facts about the world -/

@[simp] theorem World.emit_trace (w : World) (e : Event) :
    (w.emit e).trace = w.trace ++ [e] := rfl

@[simp] theorem World.emit_sessions (w : World) (e : Event) :
    (w.emit e).sessions = w.sessions := rfl

@[simp] theorem World.emit_statements (w : World) (e : Event) :
    (w.emit e).statements = w.statements := rfl

@[simp] theorem World.newSession_trace (w : World) :
    w.newSession.trace = w.trace ++ [Event.newSession w.sessions] := rfl

@[simp] theorem World.newSession_sessions (w : World) :
    w.newSession.sessions = w.sessions + 1 := rfl

@[simp] theorem World.newSession_statements (w : World) :
    w.newSession.statements = w.statements := rfl

@[simp] theorem World.closeSession_trace (w : World) (id : Nat) :
    (w.closeSession id).trace = w.trace ++ [Event.closeSession id] := rfl

@[simp] theorem World.closeSession_sessions (w : World) (id : Nat) :
    (w.closeSession id).sessions = w.sessions := rfl

@[simp] theorem World.closeSession_statements (w : World) (id : Nat) :
    (w.closeSession id).statements = w.statements := rfl

@[simp] theorem World.run_trace (w : World) (s : Nat) (q : String) :
    (w.run s q).trace = w.trace ++ [Event.run s q] := rfl

@[simp] theorem World.run_sessions (w : World) (s : Nat) (q : String) :
    (w.run s q).sessions = w.sessions := rfl

@[simp] theorem World.run_statements (w : World) (s : Nat) (q : String) :
    (w.run s q).statements = w.statements + 1 := rfl

@[simp] theorem runDeferred_trace (d : List Nat) (w : World) :
    (runDeferred d w).trace = w.trace ++ d.map Event.closeSession := by
  induction d generalizing w with
  | nil => simp [runDeferred]
  | cons id rest ih => simp [runDeferred, ih]

@[simp] theorem runDeferred_statements (d : List Nat) (w : World) :
    (runDeferred d w).statements = w.statements := by
  induction d generalizing w with
  | nil => simp [runDeferred]
  | cons id rest ih => simp [runDeferred, ih]

@[simp] theorem runDeferred_sessions (d : List Nat) (w : World) :
    (runDeferred d w).sessions = w.sessions := by
  induction d generalizing w with
  | nil => simp [runDeferred]
  | cons id rest ih => simp [runDeferred, ih]

@[simp] theorem runCount_append (a b : List Event) :
    runCount (a ++ b) = runCount a + runCount b := by
  simp [runCount]

@[simp] theorem sleepCount_append (a b : List Event) :
    sleepCount (a ++ b) = sleepCount a + sleepCount b := by
  simp [sleepCount]

@[simp] theorem runCount_nil : runCount [] = 0 := rfl

@[simp] theorem sleepCount_nil : sleepCount [] = 0 := rfl

@[simp] theorem runCount_cons (e : Event) (l : List Event) :
    runCount (e :: l) = runCount l + if e.isRun then 1 else 0 := by
  simp [runCount, List.countP_cons]

@[simp] theorem sleepCount_cons (e : Event) (l : List Event) :
    sleepCount (e :: l) = sleepCount l + if e.isSleep then 1 else 0 := by
  simp [sleepCount, List.countP_cons]

@[simp] theorem runCount_closes (d : List Nat) :
    runCount (d.map Event.closeSession) = 0 := by
  induction d with
  | nil => rfl
  | cons id rest ih => simp [ih, Event.isRun]

@[simp] theorem sleepCount_closes (d : List Nat) :
    sleepCount (d.map Event.closeSession) = 0 := by
  induction d with
  | nil => rfl
  | cons id rest ih => simp [ih, Event.isSleep]

/-! ## One iteration of the retry loop -/

theorem LoadTriples.loop_zero (env : Env) (p m : String) (lastErr : Option Error)
    (d : List Nat) (w : World) :
    LoadTriples.loop env p m 0 lastErr d w =
      (.returned (ImportResult.zero,
        some ("failed after 3 attempts: " ++ fmtErr lastErr)), d, w) := by
  simp [LoadTriples.loop, maxRetries]
  rfl

theorem LoadTriples.loop_error (env : Env) (p m uri : String) (n : Nat)
    (lastErr : Option Error) (d : List Nat) (w : World) (err : Error)
    (huri : getFileURI env.path p m = .ok uri)
    (hrun : env.run w.statements (importQuery uri) = .error err) :
    LoadTriples.loop env p m (n + 1) lastErr d w =
      LoadTriples.loop env p m n (some err) (w.sessions :: d)
        (((w.newSession.run w.sessions (importQuery uri)).emit
          (.log (.attemptFailed (maxRetries - (n + 1) + 1) maxRetries err))).emit (.sleep 1)) := by
  simp [LoadTriples.loop, huri, hrun]

theorem LoadTriples.loop_ambiguous (env : Env) (p m uri : String) (n : Nat)
    (lastErr : Option Error) (d : List Nat) (w : World)
    (huri : getFileURI env.path p m = .ok uri)
    (hrun : Ambiguous (env.run w.statements (importQuery uri))) :
    LoadTriples.loop env p m (n + 1) lastErr d w =
      LoadTriples.loop env p m n lastErr (w.sessions :: d)
        (w.newSession.run w.sessions (importQuery uri)) := by
  obtain ⟨r, ⟨result, hans, hsingle⟩, ht, he⟩ := hrun
  simp [LoadTriples.loop, huri, hans, hsingle, ht, he]

theorem LoadTriples.loop_success (env : Env) (p m uri : String) (n : Nat)
    (lastErr : Option Error) (d : List Nat) (w : World) (r : Record) (t : Int)
    (huri : getFileURI env.path p m = .ok uri)
    (hrun : SingleRecord (env.run w.statements (importQuery uri)) r)
    (ht : (r.Get "triplesLoaded").1 = Value.int t) (hpos : 0 < t) :
    LoadTriples.loop env p m (n + 1) lastErr d w =
      (.returned ({ Success := true, Message := toString t ++ " triples loaded" }, none),
        w.sessions :: d, w.newSession.run w.sessions (importQuery uri)) := by
  obtain ⟨result, hans, hsingle⟩ := hrun
  simp [LoadTriples.loop, huri, hans, hsingle, ht, hpos]

theorem LoadTriples.loop_failure (env : Env) (p m uri : String) (n : Nat)
    (lastErr : Option Error) (d : List Nat) (w : World) (r : Record) (t : Int)
    (huri : getFileURI env.path p m = .ok uri)
    (hrun : SingleRecord (env.run w.statements (importQuery uri)) r)
    (ht : (r.Get "triplesLoaded").1 = Value.int t) (hpos : ¬ 0 < t)
    (he : (r.Get "extraInfo").2 = true) :
    LoadTriples.loop env p m (n + 1) lastErr d w =
      (.returned ({ Success := false,
                    Message := "No triples loaded. Extra info: " ++ (r.Get "extraInfo").1.fmtV },
                  none),
        w.sessions :: d, w.newSession.run w.sessions (importQuery uri)) := by
  obtain ⟨result, hans, hsingle⟩ := hrun
  simp [LoadTriples.loop, huri, hans, hsingle, ht, hpos, he]

theorem LoadTriples.loop_nonDefinitive (env : Env) (p m uri : String)
    (huri : getFileURI env.path p m = .ok uri) (n : Nat) :
    ∀ (k : Nat) (lastErr : Option Error) (d : List Nat) (w : World),
      (∀ i, i < k → NonDefinitive (env.run (w.statements + i) (importQuery uri))) →
      ∃ lastErr1 d1 w1,
        LoadTriples.loop env p m (n + k) lastErr d w = LoadTriples.loop env p m n lastErr1 d1 w1 ∧
        w1.statements = w.statements + k ∧
        runCount w1.trace = runCount w.trace + k ∧
        ((∀ i, i < k → Ambiguous (env.run (w.statements + i) (importQuery uri))) →
          lastErr1 = lastErr) := by
  intro k
  induction k with
  | zero => intro lastErr d w _; exact ⟨lastErr, d, w, rfl, rfl, rfl, fun _ => rfl⟩
  | succ k ih =>
    intro lastErr d w h
    have h0 := h 0 (Nat.succ_pos k)
    rw [Nat.add_zero] at h0
    rcases h0 with ⟨err, herr⟩ | hamb
    · have hstep := LoadTriples.loop_error env p m uri (n + k) lastErr d w err huri herr
      obtain ⟨l1, d1, w1, heq, hst, hrc, _⟩ := ih (some err) (w.sessions :: d)
        (((w.newSession.run w.sessions (importQuery uri)).emit
          (.log (.attemptFailed (maxRetries - (n + k + 1) + 1) maxRetries err))).emit (.sleep 1))
        (by
          intro i hi
          have := h (i + 1) (Nat.succ_lt_succ hi)
          simpa [Nat.add_assoc, Nat.add_comm 1 i] using this)
      refine ⟨l1, d1, w1, ?_, ?_, ?_, ?_⟩
      · rw [← heq, ← hstep]; rfl
      · rw [hst]; simp; omega
      · rw [hrc]; simp [Event.isRun]; omega
      · intro hall
        have h0 := hall 0 (Nat.succ_pos k)
        rw [Nat.add_zero, herr] at h0
        obtain ⟨r, ⟨result, hans, _⟩, _⟩ := h0
        cases hans
    · have hstep := LoadTriples.loop_ambiguous env p m uri (n + k) lastErr d w huri hamb
      obtain ⟨l1, d1, w1, heq, hst, hrc, hle⟩ := ih lastErr (w.sessions :: d)
        (w.newSession.run w.sessions (importQuery uri))
        (by
          intro i hi
          have := h (i + 1) (Nat.succ_lt_succ hi)
          simpa [Nat.add_assoc, Nat.add_comm 1 i] using this)
      refine ⟨l1, d1, w1, ?_, ?_, ?_, ?_⟩
      · rw [← heq, ← hstep]; rfl
      · rw [hst]; simp; omega
      · rw [hrc]; simp [Event.isRun]; omega
      · intro hall
        apply hle
        intro i hi
        have := hall (i + 1) (Nat.succ_lt_succ hi)
        simpa [Nat.add_assoc, Nat.add_comm 1 i] using this

theorem LoadTriples.loop_success_only (env : Env) (p m : String) :
    ∀ (n : Nat) (lastErr : Option Error) (d : List Nat) (w : World)
      (res : ImportResult) (err : Option Error),
      (LoadTriples.loop env p m n lastErr d w).1 = .returned (res, err) →
      res.Success = true →
      ∃ uri, getFileURI env.path p m = .ok uri ∧
        ∃ i, i < n ∧ ∃ r t, SingleRecord (env.run (w.statements + i) (importQuery uri)) r ∧
          (r.Get "triplesLoaded").1 = Value.int t ∧ 0 < t := by
  intro n
  induction n with
  | zero =>
    intro lastErr d w res err h hs
    simp [LoadTriples.loop, ImportResult.zero] at h
    rw [← h.1] at hs
    simp at hs
  | succ n ih =>
    intro lastErr d w res err h hs
    unfold LoadTriples.loop at h
    split at h
    · simp [ImportResult.zero] at h
      rw [← h.1] at hs; simp at hs
    · rename_i uri huri
      refine ⟨uri, huri, ?_⟩
      simp only [World.newSession_statements] at h
      split at h
      · rename_i e hrun
        obtain ⟨uri1, huri1, i, hi, r, t, hsr, ht, hpos⟩ := ih _ _ _ _ _ h hs
        rw [huri] at huri1
        cases huri1
        refine ⟨i + 1, Nat.succ_lt_succ hi, r, t, ?_, ht, hpos⟩
        simpa [Nat.add_assoc, Nat.add_comm 1 i] using hsr
      · rename_i result hrun
        split at h
        · simp [ImportResult.zero] at h
          rw [← h.1] at hs; simp at hs
        · rename_i record hsingle
          split at h
          · rename_i t ht
            split at h
            · rename_i hpos
              exact ⟨0, Nat.succ_pos n, record, t, ⟨result, by simpa using hrun, hsingle⟩, ht, hpos⟩
            · split at h
              · simp at h
                rw [← h.1] at hs; simp at hs
              · obtain ⟨uri1, huri1, i, hi, r, t1, hsr, ht1, hpos⟩ := ih _ _ _ _ _ h hs
                rw [huri] at huri1
                cases huri1
                refine ⟨i + 1, Nat.succ_lt_succ hi, r, t1, ?_, ht1, hpos⟩
                simpa [Nat.add_assoc, Nat.add_comm 1 i] using hsr
          · simp at h

theorem LoadTriples.loop_runCount_le (env : Env) (p m : String) :
    ∀ (n : Nat) (lastErr : Option Error) (d : List Nat) (w : World),
      runCount w.trace ≤ runCount (LoadTriples.loop env p m n lastErr d w).2.2.trace := by
  intro n
  induction n with
  | zero => intro lastErr d w; simp [LoadTriples.loop]
  | succ n ih =>
    intro lastErr d w
    unfold LoadTriples.loop
    split
    · simp
    · simp only [World.newSession_statements]
      split
      · refine Nat.le_trans ?_ (ih _ _ _)
        simp
      · split
        · simp
        · split
          · split
            · simp
            · split
              · simp
              · refine Nat.le_trans ?_ (ih _ _ _)
                simp
          · simp

theorem LoadTriples.loop_runs_once (env : Env) (p m uri : String)
    (huri : getFileURI env.path p m = .ok uri)
    (n : Nat) (lastErr : Option Error) (d : List Nat) (w : World) :
    runCount w.trace + 1 ≤
      runCount (LoadTriples.loop env p m (n + 1) lastErr d w).2.2.trace := by
  unfold LoadTriples.loop
  simp only [huri, World.newSession_statements]
  split
  · refine Nat.le_trans ?_ (LoadTriples.loop_runCount_le env p m _ _ _ _)
    simp [Event.isRun]
  · split
    · simp [Event.isRun]
    · split
      · split
        · simp [Event.isRun]
        · split
          · simp [Event.isRun]
          · refine Nat.le_trans ?_ (LoadTriples.loop_runCount_le env p m _ _ _ _)
            simp [Event.isRun]
      · simp [Event.isRun]

theorem LoadTriples_trace (env : Env) (p m : String) (w : World) :
    (LoadTriples env p m w).2.trace =
      (LoadTriples.loop env p m maxRetries none [] w).2.2.trace ++
        (LoadTriples.loop env p m maxRetries none [] w).2.1.map Event.closeSession := by
  simp [LoadTriples]

/-! ## Claims about `LoadTriples` -/

/-- C1, as amended: when the URI resolves and the statement execution fails on
each of the three attempts, `LoadTriples` executes the statement exactly 3
times, waits the one-second back-off exactly 3 times (once after every failed
attempt, the last one included) and returns a non-nil error whose message ends
with the error of the third attempt. -/
theorem LoadTriples_all_attempts_fail (env : Env) (p m uri : String) (w : World)
    (e1 e2 e3 : Error)
    (huri : getFileURI env.path p m = .ok uri)
    (h1 : env.run w.statements (importQuery uri) = .error e1)
    (h2 : env.run (w.statements + 1) (importQuery uri) = .error e2)
    (h3 : env.run (w.statements + 2) (importQuery uri) = .error e3) :
    (LoadTriples env p m w).1 =
        .returned (ImportResult.zero, some ("failed after 3 attempts: " ++ e3)) ∧
      runCount (LoadTriples env p m w).2.trace = runCount w.trace + 3 ∧
      sleepCount (LoadTriples env p m w).2.trace = sleepCount w.trace + 3 ∧
      (LoadTriples env p m w).2.trace = w.trace ++
        [.newSession w.sessions, .run w.sessions (importQuery uri),
         .log (.attemptFailed 1 3 e1), .sleep 1,
         .newSession (w.sessions + 1), .run (w.sessions + 1) (importQuery uri),
         .log (.attemptFailed 2 3 e2), .sleep 1,
         .newSession (w.sessions + 2), .run (w.sessions + 2) (importQuery uri),
         .log (.attemptFailed 3 3 e3), .sleep 1,
         .closeSession (w.sessions + 2), .closeSession (w.sessions + 1),
         .closeSession w.sessions] := by
  have key : LoadTriples.loop env p m maxRetries none [] w =
      (.returned (ImportResult.zero, some ("failed after 3 attempts: " ++ e3)),
        [w.sessions + 2, w.sessions + 1, w.sessions],
        { trace := w.trace ++
            [.newSession w.sessions, .run w.sessions (importQuery uri),
             .log (.attemptFailed 1 3 e1), .sleep 1,
             .newSession (w.sessions + 1), .run (w.sessions + 1) (importQuery uri),
             .log (.attemptFailed 2 3 e2), .sleep 1,
             .newSession (w.sessions + 2), .run (w.sessions + 2) (importQuery uri),
             .log (.attemptFailed 3 3 e3), .sleep 1],
          sessions := w.sessions + 3, statements := w.statements + 3 }) := by
    show LoadTriples.loop env p m 3 none [] w = _
    rw [LoadTriples.loop_error env p m uri 2 none [] w e1 huri h1]
    rw [LoadTriples.loop_error env p m uri 1 _ _ _ e2 huri (by simpa using h2)]
    rw [LoadTriples.loop_error env p m uri 0 _ _ _ e3 huri (by simpa using h3)]
    rw [LoadTriples.loop_zero]
    simp [maxRetries, World.emit, World.run, World.newSession, fmtErr]
  refine ⟨?_, ?_, ?_, ?_⟩
  · simp [LoadTriples, key]
  · simp [LoadTriples, key, Event.isRun]
  · simp [LoadTriples, key, Event.isSleep]
  · simp [LoadTriples, key]

/-- C2: if attempts before attempt `k + 1` give no definitive answer (transport
error, or zero triples without `extraInfo`) and attempt `k + 1` (of at most 3)
returns a single record with `triplesLoaded = t > 0`, then `LoadTriples`
returns `Success = true` with message `"<t> triples loaded"` and a nil error
after exactly `k + 1` statement executions; conversely a result with
`Success = true` is returned only if some attempt reported `triplesLoaded > 0`. -/
theorem LoadTriples_success_short_circuit :
    (∀ (env : Env) (p m uri : String) (w : World) (k : Nat) (r : Record) (t : Int),
      getFileURI env.path p m = .ok uri → k < 3 →
      (∀ i, i < k → NonDefinitive (env.run (w.statements + i) (importQuery uri))) →
      SingleRecord (env.run (w.statements + k) (importQuery uri)) r →
      (r.Get "triplesLoaded").1 = Value.int t → 0 < t →
      (LoadTriples env p m w).1 =
          .returned ({ Success := true, Message := toString t ++ " triples loaded" }, none) ∧
        runCount (LoadTriples env p m w).2.trace = runCount w.trace + (k + 1)) ∧
    (∀ (env : Env) (p m : String) (w : World) (res : ImportResult) (err : Option Error),
      (LoadTriples env p m w).1 = .returned (res, err) → res.Success = true →
      ∃ uri, getFileURI env.path p m = .ok uri ∧
        ∃ i, i < 3 ∧ ∃ r t, SingleRecord (env.run (w.statements + i) (importQuery uri)) r ∧
          (r.Get "triplesLoaded").1 = Value.int t ∧ 0 < t) := by
  constructor
  · intro env p m uri w k r t huri hk hbefore hrec ht hpos
    obtain ⟨l1, d1, w1, heq, hst, hrc, _⟩ :=
      LoadTriples.loop_nonDefinitive env p m uri huri (3 - k - 1 + 1) k none [] w hbefore
    have h3 : 3 - k - 1 + 1 + k = maxRetries := by simp [maxRetries]; omega
    rw [h3] at heq
    have hstep := LoadTriples.loop_success env p m uri (3 - k - 1) l1 d1 w1 r t huri
      (by rw [hst]; exact hrec) ht hpos
    rw [hstep] at heq
    constructor
    · simp [LoadTriples, heq]
    · simp [LoadTriples, heq, Event.isRun, hrc]; omega
  · intro env p m w res err h hs
    exact LoadTriples.loop_success_only env p m maxRetries none [] w res err h hs

/-- C3: if the attempts before attempt `k + 1` (of at most 3) fail with a
transport error and attempt `k + 1` returns a single record with
`triplesLoaded = 0` and an `extraInfo` field `e`, then `LoadTriples` returns
`Success = false` with message `"No triples loaded. Extra info: <e>"` and a nil
error after exactly `k + 1` statement executions. -/
theorem LoadTriples_definitive_failure (env : Env) (p m uri : String) (w : World)
    (k : Nat) (r : Record) (e : Value)
    (huri : getFileURI env.path p m = .ok uri) (hk : k < 3)
    (hbefore : ∀ i, i < k → TransportError (env.run (w.statements + i) (importQuery uri)))
    (hrec : SingleRecord (env.run (w.statements + k) (importQuery uri)) r)
    (ht : (r.Get "triplesLoaded").1 = Value.int 0)
    (he : r.Get "extraInfo" = (e, true)) :
    (LoadTriples env p m w).1 =
        .returned ({ Success := false,
                     Message := "No triples loaded. Extra info: " ++ e.fmtV }, none) ∧
      runCount (LoadTriples env p m w).2.trace = runCount w.trace + (k + 1) := by
  obtain ⟨l1, d1, w1, heq, hst, hrc, _⟩ :=
    LoadTriples.loop_nonDefinitive env p m uri huri (3 - k - 1 + 1) k none [] w
      (fun i hi => Or.inl (hbefore i hi))
  have h3 : 3 - k - 1 + 1 + k = maxRetries := by simp [maxRetries]; omega
  rw [h3] at heq
  have hstep := LoadTriples.loop_failure env p m uri (3 - k - 1) l1 d1 w1 r 0 huri
    (by rw [hst]; exact hrec) ht (by decide) (by rw [he])
  rw [hstep] at heq
  constructor
  · simp [LoadTriples, heq, he]
  · simp [LoadTriples, heq, Event.isRun, hrc]; omega

/-- C4: a single record with `triplesLoaded = 0` and no `extraInfo` does not end
the operation. If attempt `j + 1` is such an answer, is not the last attempt and
was reached (the earlier answers were not definitive), then the next attempt is
executed and the outcome is the one the rest of the loop produces from attempt
`j + 2` on. If none of the three attempts gives a definitive answer,
`LoadTriples` returns the zero `ImportResult` with a non-nil error after
exactly 3 statement executions; with three ambiguous answers the error is
`"failed after 3 attempts: <nil>"`. -/
theorem LoadTriples_ambiguous_retried :
    (∀ (env : Env) (p m uri : String) (w : World) (j : Nat),
      getFileURI env.path p m = .ok uri → j + 1 < 3 →
      (∀ i, i < j → NonDefinitive (env.run (w.statements + i) (importQuery uri))) →
      Ambiguous (env.run (w.statements + j) (importQuery uri)) →
      runCount w.trace + (j + 2) ≤ runCount (LoadTriples env p m w).2.trace ∧
        ∃ lastErr d w1, w1.statements = w.statements + (j + 1) ∧
          (LoadTriples env p m w).1 =
            (LoadTriples.loop env p m (maxRetries - (j + 1)) lastErr d w1).1) ∧
    (∀ (env : Env) (p m uri : String) (w : World),
      getFileURI env.path p m = .ok uri →
      (∀ i, i < 3 → NonDefinitive (env.run (w.statements + i) (importQuery uri))) →
      (∃ msg, (LoadTriples env p m w).1 = .returned (ImportResult.zero, some msg)) ∧
        runCount (LoadTriples env p m w).2.trace = runCount w.trace + 3 ∧
        ((∀ i, i < 3 → Ambiguous (env.run (w.statements + i) (importQuery uri))) →
          (LoadTriples env p m w).1 =
            .returned (ImportResult.zero, some "failed after 3 attempts: <nil>"))) := by
  constructor
  · intro env p m uri w j huri hj hbefore hamb
    have hall : ∀ i, i < j + 1 →
        NonDefinitive (env.run (w.statements + i) (importQuery uri)) := by
      intro i hi
      rcases Nat.lt_succ_iff_lt_or_eq.mp hi with h | h
      · exact hbefore i h
      · subst h; exact Or.inr hamb
    obtain ⟨l1, d1, w1, heq, hst, hrc, _⟩ :=
      LoadTriples.loop_nonDefinitive env p m uri huri (3 - (j + 1) - 1 + 1) (j + 1) none [] w hall
    have h3 : 3 - (j + 1) - 1 + 1 + (j + 1) = maxRetries := by simp [maxRetries]; omega
    rw [h3] at heq
    constructor
    · have hone := LoadTriples.loop_runs_once env p m uri huri (3 - (j + 1) - 1) l1 d1 w1
      rw [LoadTriples_trace, heq]
      simp only [runCount_append, runCount_closes]
      omega
    · refine ⟨l1, d1, w1, hst, ?_⟩
      have h4 : maxRetries - (j + 1) = 3 - (j + 1) - 1 + 1 := by simp [maxRetries]; omega
      rw [h4]
      simp [LoadTriples, heq]
  · intro env p m uri w huri hall
    obtain ⟨l1, d1, w1, heq, hst, hrc, hle⟩ :=
      LoadTriples.loop_nonDefinitive env p m uri huri 0 3 none [] w hall
    have h3 : 0 + 3 = maxRetries := rfl
    rw [h3, LoadTriples.loop_zero] at heq
    refine ⟨⟨"failed after 3 attempts: " ++ fmtErr l1, by simp [LoadTriples, heq]⟩, ?_, ?_⟩
    · simp [LoadTriples, heq, hrc]
    · intro hamb
      have := hle hamb
      subst this
      simp [LoadTriples, heq, fmtErr]

/-- Witness of C1 as amended: three time-outs in a row. -/
theorem LoadTriples_all_attempts_fail_witness :
    (LoadTriples envAllFail "a.ttl" "" World.init).1 =
        .returned (ImportResult.zero, some "failed after 3 attempts: timeout 3") ∧
      runCount (LoadTriples envAllFail "a.ttl" "" World.init).2.trace = 3 ∧
      sleepCount (LoadTriples envAllFail "a.ttl" "" World.init).2.trace = 3 :=
  have h := LoadTriples_all_attempts_fail envAllFail "a.ttl" "" "file:///data/a.ttl"
    World.init "timeout 1" "timeout 2" "timeout 3" rfl rfl rfl rfl
  ⟨h.1, h.2.1, h.2.2.1⟩

/-- Counterexample to C1 as stated: with three transport errors in a row the
back-off wait happens 3 times, not 2. -/
theorem LoadTriples_two_backoffs_counterexample :
    getFileURI envAllFail.path "a.ttl" "" = .ok "file:///data/a.ttl" ∧
      envAllFail.run 0 (importQuery "file:///data/a.ttl") = .error "timeout 1" ∧
      envAllFail.run 1 (importQuery "file:///data/a.ttl") = .error "timeout 2" ∧
      envAllFail.run 2 (importQuery "file:///data/a.ttl") = .error "timeout 3" ∧
      runCount (LoadTriples envAllFail "a.ttl" "" World.init).2.trace = 3 ∧
      sleepCount (LoadTriples envAllFail "a.ttl" "" World.init).2.trace = 3 ∧
      ¬ sleepCount (LoadTriples envAllFail "a.ttl" "" World.init).2.trace = 2 := by
  refine ⟨rfl, rfl, rfl, rfl, by decide, by decide, by decide⟩

/-- Witness of C2: the first attempt returns `triplesLoaded = 5`. -/
theorem LoadTriples_success_short_circuit_witness :
    (LoadTriples envFirstLoads "a.ttl" "" World.init).1 =
        .returned ({ Success := true, Message := "5 triples loaded" }, none) ∧
      runCount (LoadTriples envFirstLoads "a.ttl" "" World.init).2.trace = 1 :=
  LoadTriples_success_short_circuit.1 envFirstLoads "a.ttl" "" "file:///data/a.ttl"
    World.init 0 (loadedRecord 5) 5 rfl (by decide) (fun i hi => absurd hi (Nat.not_lt_zero i))
    ⟨_, rfl, rfl⟩ rfl (by decide)

/-- Witness of C3: two transport errors, then `triplesLoaded = 0` with
`extraInfo = "bad syntax"`; the failure result comes after exactly 3 attempts. -/
theorem LoadTriples_definitive_failure_witness :
    (LoadTriples envThirdExplains "a.ttl" "" World.init).1 =
        .returned ({ Success := false,
                     Message := "No triples loaded. Extra info: bad syntax" }, none) ∧
      runCount (LoadTriples envThirdExplains "a.ttl" "" World.init).2.trace = 3 :=
  LoadTriples_definitive_failure envThirdExplains "a.ttl" "" "file:///data/a.ttl"
    World.init 2 (infoRecord 0 "bad syntax") (.str "bad syntax") rfl (by decide)
    (fun i hi => by
      interval_cases i
      · exact ⟨"timeout 1", rfl⟩
      · exact ⟨"timeout 2", rfl⟩)
    ⟨_, rfl, rfl⟩ rfl rfl

/-- Witness of C4: three ambiguous answers end in an error after 3 attempts. -/
theorem LoadTriples_ambiguous_retried_witness :
    (LoadTriples envAllAmbiguous "a.ttl" "" World.init).1 =
        .returned (ImportResult.zero, some "failed after 3 attempts: <nil>") ∧
      runCount (LoadTriples envAllAmbiguous "a.ttl" "" World.init).2.trace = 3 :=
  have hamb : ∀ i, i < 3 → Ambiguous
      (envAllAmbiguous.run (World.init.statements + i) (importQuery "file:///data/a.ttl")) :=
    fun i hi => by
      interval_cases i
      · exact ⟨loadedRecord 0, ⟨_, rfl, rfl⟩, rfl, rfl⟩
      · exact ⟨loadedRecord 0, ⟨_, rfl, rfl⟩, rfl, rfl⟩
      · exact ⟨loadedRecord 0, ⟨_, rfl, rfl⟩, rfl, rfl⟩
  have h := LoadTriples_ambiguous_retried.2 envAllAmbiguous "a.ttl" "" "file:///data/a.ttl"
    World.init rfl (fun i hi => Or.inr (hamb i hi))
  ⟨h.2.2 hamb, h.2.1⟩

/-- C10 at the failing input (one transport error, then ten triples loaded):
the session of attempt 1 is still open when the session of attempt 2 is
opened, so two sessions are open at the same time; both are closed, in reverse
order, only when `LoadTriples` returns. -/
theorem LoadTriples_sessions_overlap :
    (LoadTriples envSecondLoads "a.ttl" "" World.init).2.trace =
        [.newSession 0, .run 0 (importQuery "file:///data/a.ttl"),
         .log (.attemptFailed 1 3 "timeout 1"), .sleep 1,
         .newSession 1, .run 1 (importQuery "file:///data/a.ttl"),
         .closeSession 1, .closeSession 0] ∧
      peakOpen (LoadTriples envSecondLoads "a.ttl" "" World.init).2.trace = 2 ∧
      openAtEnd (LoadTriples envSecondLoads "a.ttl" "" World.init).2.trace = [] := by
  refine ⟨rfl, by decide, by decide⟩

/-! ## Claims about `ValidateGraph` -/

theorem Record.IsViolation.get_severity {r : Record} (h : r.IsViolation) :
    r.Values.get? 5 = some (r.Values.getD 5 Value.null) := by
  obtain ⟨hk, hv⟩ := h
  rw [hk] at hv
  have h6 : r.Values.length = 6 := hv
  have h5 : 5 < r.Values.length := by omega
  rw [List.getD_eq_getElem?_getD, List.get?_eq_getElem?, List.getElem?_eq_getElem h5]
  rfl

theorem ValidateGraph.violations_returns :
    ∀ (records : List Record) (b : Bool) (w : World),
      (∀ r ∈ records, r.IsViolation) →
      ValidateGraph.violations records b w =
        (.returned (if records = [] then b else true),
          { w with trace := w.trace ++
              records.map fun r => .log (.validationError (r.Values.getD 5 Value.null)) }) := by
  intro records
  induction records with
  | nil => intro b w _; simp [ValidateGraph.violations]
  | cons r rest ih =>
    intro b w h
    have hr := (h r (List.mem_cons_self r rest)).get_severity
    have hrest : ∀ x ∈ rest, x.IsViolation := fun x hx => h x (List.mem_cons_of_mem r hx)
    simp only [ValidateGraph.violations, hr]
    rw [ih true _ hrest]
    simp [World.emit]

@[simp] theorem validationLogs_append (a b : List Event) :
    validationLogs (a ++ b) = validationLogs a ++ validationLogs b := by
  simp [validationLogs]

theorem validationLogs_map (records : List Record) :
    validationLogs
        (records.map fun r => .log (.validationError (r.Values.getD 5 Value.null))) =
      records.map fun r => r.Values.getD 5 Value.null := by
  induction records with
  | nil => rfl
  | cons r rest ih =>
    simp only [List.map_cons]
    rw [← ih]
    rfl

theorem runCount_validationLogs (records : List Record) :
    runCount (records.map fun r => .log (.validationError (r.Values.getD 5 Value.null))) = 0 := by
  induction records with
  | nil => rfl
  | cons r rest ih => simp only [List.map_cons, runCount_cons, ih, Event.isRun]; rfl

/-- C5: when the schema URI resolves, the three statements execute without
transport error, the shape import yields at least one row and the validate
step yields records of the yielded columns, `ValidateGraph` visits every
record of the validate stream (one `Validation error` line per record) and
returns the error `"SHACL validation failed"` exactly when that stream has at
least one record; with no record it returns nil. -/
theorem ValidateGraph_pass_fail (env : Env) (schemaFile m uri : String) (w : World)
    (r0 r1 r2 : Result)
    (huri : getFileURI env.path schemaFile m = .ok uri)
    (h0 : env.run w.statements dropShapesQuery = .ok r0)
    (h1 : env.run (w.statements + 1) (importShapesQuery uri) = .ok r1)
    (hrows : r1.records ≠ [])
    (h2 : env.run (w.statements + 2) validateQuery = .ok r2)
    (hshape : ∀ r ∈ r2.records, r.IsViolation) :
    ((ValidateGraph env schemaFile m w).1 = .returned (some "SHACL validation failed") ↔
        r2.records ≠ []) ∧
      (r2.records = [] → (ValidateGraph env schemaFile m w).1 = .returned none) ∧
      (validationLogs (ValidateGraph env schemaFile m w).2.trace).length =
        (validationLogs w.trace).length + r2.records.length ∧
      runCount (ValidateGraph env schemaFile m w).2.trace = runCount w.trace + 3 := by
  have hnext : r1.Next.1.isNone = false := by
    cases hr : r1.records with
    | nil => exact absurd hr hrows
    | cons a t => simp [Result.Next, hr]
  have hv1 : ValidateGraph.violations r2.records false
      { trace := w.trace ++ [.newSession w.sessions, .run w.sessions dropShapesQuery,
          .run w.sessions (importShapesQuery uri), .run w.sessions validateQuery],
        sessions := w.sessions + 1, statements := w.statements + 1 + 1 + 1 } = _ :=
    ValidateGraph.violations_returns r2.records false _ hshape
  have key : ValidateGraph env schemaFile m w =
      (.returned (if r2.records = [] then none else some "SHACL validation failed"),
        { trace := w.trace ++ [.newSession w.sessions, .run w.sessions dropShapesQuery,
            .run w.sessions (importShapesQuery uri), .run w.sessions validateQuery] ++
            (r2.records.map fun r => .log (.validationError (r.Values.getD 5 Value.null))) ++
            [.closeSession w.sessions],
          sessions := w.sessions + 1, statements := w.statements + 1 + 1 + 1 }) := by
    simp only [ValidateGraph, ValidateGraph.loop, huri, h0, h1, h2, hnext,
      World.newSession, World.run, World.closeSession, World.emit, List.append_assoc,
      List.singleton_append, List.cons_append, List.nil_append, Nat.zero_add]
    simp only [show ((0 : Nat) == 1) = false from rfl, show ((1 : Nat) == 1) = true from rfl,
      show ((0 : Nat) == 2) = false from rfl, show ((1 : Nat) == 2) = false from rfl,
      show ((2 : Nat) == 1) = false from rfl, show ((2 : Nat) == 2) = true from rfl,
      Bool.false_and, Bool.true_and, Bool.false_eq_true, if_false, if_true, hv1]
    by_cases hempty : r2.records = []
    · simp [hempty, ValidateGraph.loop]
    · simp [hempty]
  rw [key]
  refine ⟨?_, ?_, ?_, ?_⟩
  · by_cases hempty : r2.records = [] <;> simp [hempty]
  · intro hempty; simp [hempty]
  · simp only [validationLogs_append, validationLogs_map, List.length_append, List.length_map]
    simp [validationLogs]
  · simp only [runCount_append, runCount_validationLogs]
    simp [Event.isRun]

/-- C6: when the drop-shapes and shape-import statements execute without
transport error and the shape-import result has no rows, `ValidateGraph`
returns the error `"failed to load constraints file"` and exactly two
statements were run, drop-shapes then shape-import; the validate statement is
not executed. -/
theorem ValidateGraph_constraints_not_loaded (env : Env) (schemaFile m uri : String)
    (w : World) (r0 r1 : Result)
    (huri : getFileURI env.path schemaFile m = .ok uri)
    (h0 : env.run w.statements dropShapesQuery = .ok r0)
    (h1 : env.run (w.statements + 1) (importShapesQuery uri) = .ok r1)
    (hrows : r1.records = []) :
    (ValidateGraph env schemaFile m w).1 =
        .returned (some "failed to load constraints file") ∧
      (ValidateGraph env schemaFile m w).2.trace = w.trace ++
        [.newSession w.sessions, .run w.sessions dropShapesQuery,
         .run w.sessions (importShapesQuery uri), .closeSession w.sessions] ∧
      runCount (ValidateGraph env schemaFile m w).2.trace = runCount w.trace + 2 := by
  have hnext : r1.Next.1.isNone = true := by simp [Result.Next, hrows]
  have key : ValidateGraph env schemaFile m w =
      (.returned (some "failed to load constraints file"),
        ((w.newSession.run w.sessions dropShapesQuery).run w.sessions
          (importShapesQuery uri)).closeSession w.sessions) := by
    simp [ValidateGraph, ValidateGraph.loop, huri, h0, h1, hnext]
  rw [key]
  simp [Event.isRun]

/-- Witness of C5: two violation records make the validation fail, after both
were visited. -/
theorem ValidateGraph_pass_fail_witness :
    (ValidateGraph envTwoViolations "shapes.ttl" "" World.init).1 =
        .returned (some "SHACL validation failed") ∧
      (validationLogs (ValidateGraph envTwoViolations "shapes.ttl" "" World.init).2.trace).length
        = 2 :=
  have h := ValidateGraph_pass_fail envTwoViolations "shapes.ttl" "" "file:///data/shapes.ttl"
    World.init { records := [], err := none } { records := [shapeRow], err := none }
    { records := [violationRecord "n1" "name is required" "sh:Violation",
                  violationRecord "n2" "age must be positive" "sh:Warning"], err := none }
    rfl rfl rfl (by decide) rfl
    (fun r hr => by
      simp only [List.mem_cons, List.mem_singleton, List.not_mem_nil, or_false] at hr
      rcases hr with rfl | rfl <;> exact ⟨rfl, rfl⟩)
  ⟨h.1.mpr (by decide), h.2.2.1⟩

/-- Witness of C6: the shape import yields no row. -/
theorem ValidateGraph_constraints_not_loaded_witness :
    (ValidateGraph envNoShapes "shapes.ttl" "" World.init).1 =
        .returned (some "failed to load constraints file") ∧
      runCount (ValidateGraph envNoShapes "shapes.ttl" "" World.init).2.trace = 2 :=
  have h := ValidateGraph_constraints_not_loaded envNoShapes "shapes.ttl" ""
    "file:///data/shapes.ttl" World.init { records := [], err := none }
    { records := [], err := none } rfl rfl rfl rfl
  ⟨h.1, h.2.2⟩

/-- C7 at the failing input (two violation records): the two `Validation error`
lines carry the sixth yielded column, `severity`, of each record and not the
fifth, `resultMessage`. -/
theorem ValidateGraph_logs_severity_column :
    validationLogs (ValidateGraph envTwoViolations "shapes.ttl" "" World.init).2.trace =
        [.str "sh:Violation", .str "sh:Warning"] ∧
      [violationRecord "n1" "name is required" "sh:Violation",
        violationRecord "n2" "age must be positive" "sh:Warning"].map
          (fun r => (r.Get "severity").1) = [.str "sh:Violation", .str "sh:Warning"] ∧
      [violationRecord "n1" "name is required" "sh:Violation",
        violationRecord "n2" "age must be positive" "sh:Warning"].map
          (fun r => (r.Get "resultMessage").1) =
        [.str "name is required", .str "age must be positive"] ∧
      (LogEntry.validationError (.str "sh:Violation")).render =
        "Validation error: sh:Violation" := by
  refine ⟨by decide, by decide, by decide, by decide⟩

/-! ## Claims about `getFileURI` -/

/-- C8: `getFileURI` agrees with the definition in the words of the
specification. When the absolute path is `a`, the URI is `file://` followed by
`a` (empty mount override) or by the override joined with the base name of `a`
(non-empty override), with backslashes turned into forward slashes; so with a
non-empty override two paths with the same base name resolve to the same URI.
`getFileURI` fails exactly when the absolute-path computation fails, with the
same error. -/
theorem getFileURI_refines_spec :
    (∀ (path : PathOps) (p M : String), getFileURI path p M = resolvedURISpec path p M) ∧
    (∀ (path : PathOps) (p a : String), path.Abs p = .ok a →
      getFileURI path p "" = .ok ("file://" ++ backslashesToSlashes a)) ∧
    (∀ (path : PathOps) (p M a : String), path.Abs p = .ok a → M ≠ "" →
      getFileURI path p M =
        .ok ("file://" ++ backslashesToSlashes (path.Join M (path.Base a)))) ∧
    (∀ (path : PathOps) (p1 p2 M a1 a2 : String), M ≠ "" →
      path.Abs p1 = .ok a1 → path.Abs p2 = .ok a2 → path.Base a1 = path.Base a2 →
      getFileURI path p1 M = getFileURI path p2 M) ∧
    (∀ (path : PathOps) (p M : String) (err : Error),
      getFileURI path p M = .error err ↔ path.Abs p = .error err) := by
  refine ⟨?_, ?_, ?_, ?_, ?_⟩
  · intro path p M
    unfold getFileURI resolvedURISpec
    cases path.Abs p with
    | error e => rfl
    | ok a =>
      by_cases hM : M = ""
      · simp [hM, backslashesToSlashes]
      · simp [hM, backslashesToSlashes]
  · intro path p a ha
    simp [getFileURI, ha]
  · intro path p M a ha hM
    simp [getFileURI, ha, hM]
  · intro path p1 p2 M a1 a2 hM h1 h2 hb
    simp [getFileURI, h1, h2, hM, hb]
  · intro path p M err
    unfold getFileURI
    cases path.Abs p with
    | error e => simp
    | ok a => simp

/-- Witness of C8: on a Unix host with working directory `/data`, two files
named `a.ttl` at different depths resolve to the same URI under the mount
override `/uprise-outputs`. -/
theorem getFileURI_refines_spec_witness :
    getFileURI (Unix.ops (.ok "/data")) "in/a.ttl" "/uprise-outputs" =
        .ok "file:///uprise-outputs/a.ttl" ∧
      getFileURI (Unix.ops (.ok "/data")) "in/a.ttl" "/uprise-outputs" =
        getFileURI (Unix.ops (.ok "/data")) "in/deep/er/a.ttl" "/uprise-outputs" :=
  ⟨getFileURI_refines_spec.2.2.1 (Unix.ops (.ok "/data")) "in/a.ttl" "/uprise-outputs"
      "/data/in/a.ttl" rfl (by decide),
    getFileURI_refines_spec.2.2.2.1 (Unix.ops (.ok "/data")) "in/a.ttl" "in/deep/er/a.ttl"
      "/uprise-outputs" "/data/in/a.ttl" "/data/in/deep/er/a.ttl" (by decide) rfl rfl rfl⟩

/-! ## Quiet continuations -/

theorem Quiet.refl (w : World) : Quiet w w := ⟨[], by simp, by simp⟩

theorem Quiet.trans {w w1 w2 : World} (h1 : Quiet w w1) (h2 : Quiet w1 w2) : Quiet w w2 := by
  obtain ⟨a, ha, hqa⟩ := h1
  obtain ⟨b, hb, hqb⟩ := h2
  refine ⟨a ++ b, by rw [hb, ha, List.append_assoc], ?_⟩
  intro e he
  rcases List.mem_append.mp he with h | h
  · exact hqa e h
  · exact hqb e h

theorem Quiet.emit (w : World) (e : Event) (h : e.isQuiet = true) : Quiet w (w.emit e) :=
  ⟨[e], rfl, by simpa using h⟩

theorem Quiet.newSession (w : World) : Quiet w w.newSession :=
  ⟨[.newSession w.sessions], rfl, by simp [Event.isQuiet]⟩

theorem Quiet.run (w : World) (s : Nat) (q : String) : Quiet w (w.run s q) :=
  ⟨[.run s q], rfl, by simp [Event.isQuiet]⟩

theorem Quiet.closeSession (w : World) (s : Nat) : Quiet w (w.closeSession s) :=
  ⟨[.closeSession s], rfl, by simp [Event.isQuiet]⟩

theorem Quiet.runDeferred (d : List Nat) (w : World) : Quiet w (runDeferred d w) := by
  induction d generalizing w with
  | nil => exact Quiet.refl w
  | cons id rest ih => exact (Quiet.closeSession w id).trans (ih _)

@[simp] theorem importMarks_append (a b : List Event) :
    importMarks (a ++ b) = importMarks a ++ importMarks b := by
  simp [importMarks]

@[simp] theorem validateCalls_append (a b : List Event) :
    validateCalls (a ++ b) = validateCalls a ++ validateCalls b := by
  simp [validateCalls]

theorem importMarks_quiet (evs : List Event) (h : ∀ e ∈ evs, e.isQuiet = true) :
    importMarks evs = [] := by
  induction evs with
  | nil => rfl
  | cons e rest ih =>
    have he := h e (List.mem_cons_self e rest)
    have hrest := ih fun x hx => h x (List.mem_cons_of_mem e hx)
    have hsplit : importMarks (e :: rest) = importMarks [e] ++ importMarks rest :=
      importMarks_append [e] rest
    rw [hsplit, hrest]
    cases e with
    | call method arg =>
      simp [Event.isQuiet] at he
      simp [importMarks, he.1]
    | log entry => cases entry <;> simp_all [importMarks, Event.isQuiet]
    | _ => simp [importMarks]

theorem validateCalls_quiet (evs : List Event) (h : ∀ e ∈ evs, e.isQuiet = true) :
    validateCalls evs = [] := by
  induction evs with
  | nil => rfl
  | cons e rest ih =>
    have he := h e (List.mem_cons_self e rest)
    have hrest := ih fun x hx => h x (List.mem_cons_of_mem e hx)
    have hsplit : validateCalls (e :: rest) = validateCalls [e] ++ validateCalls rest :=
      validateCalls_append [e] rest
    rw [hsplit, hrest]
    cases e with
    | call method arg =>
      simp [Event.isQuiet] at he
      simp [validateCalls, he.2]
    | _ => simp [validateCalls]

theorem LoadTriples_loop_quiet (env : Env) (p m : String) :
    ∀ (n : Nat) (lastErr : Option Error) (d : List Nat) (w : World),
      Quiet w (LoadTriples.loop env p m n lastErr d w).2.2 := by
  intro n
  induction n with
  | zero => intro lastErr d w; exact Quiet.refl w
  | succ n ih =>
    intro lastErr d w
    have hrun : Quiet w (w.newSession.run w.sessions
        (importQuery (match getFileURI env.path p m with | .ok u => u | .error _ => ""))) :=
      (Quiet.newSession w).trans (Quiet.run _ _ _)
    unfold LoadTriples.loop
    split
    · exact Quiet.newSession w
    · rename_i uri huri
      rw [huri] at hrun
      simp only at hrun
      simp only [World.newSession_statements]
      split
      · refine hrun.trans (Quiet.trans ?_ (ih _ _ _))
        refine Quiet.trans (Quiet.emit _ _ ?_) (Quiet.emit _ _ ?_) <;> rfl
      · split
        · exact hrun
        · split
          · split
            · exact hrun
            · split
              · exact hrun
              · exact hrun.trans (ih _ _ _)
          · exact hrun

theorem LoadTriples.loop_returns (env : Env) (hwt : WellTyped env) (p m : String) :
    ∀ (n : Nat) (lastErr : Option Error) (d : List Nat) (w : World),
      ∃ res, (LoadTriples.loop env p m n lastErr d w).1 = .returned res := by
  intro n
  induction n with
  | zero => intro lastErr d w; exact ⟨_, rfl⟩
  | succ n ih =>
    intro lastErr d w
    unfold LoadTriples.loop
    split
    · exact ⟨_, rfl⟩
    · simp only [World.newSession_statements]
      split
      · exact ih _ _ _
      · rename_i result hrun
        split
        · exact ⟨_, rfl⟩
        · rename_i record hsingle
          split
          · split
            · exact ⟨_, rfl⟩
            · split
              · exact ⟨_, rfl⟩
              · exact ih _ _ _
          · rename_i hnot
            obtain ⟨t, ht⟩ := hwt.1 _ _ _ _ hrun hsingle
            exact absurd ht (hnot t)

theorem LoadTriples_quiet (env : Env) (p m : String) (w : World) :
    Quiet w (LoadTriples env p m w).2 :=
  (LoadTriples_loop_quiet env p m maxRetries none [] w).trans (Quiet.runDeferred _ _)

theorem LoadTriples_returns (env : Env) (hwt : WellTyped env) (p m : String) (w : World) :
    ∃ res, (LoadTriples env p m w).1 = .returned res :=
  LoadTriples.loop_returns env hwt p m maxRetries none [] w

theorem ValidateGraph.violations_quiet :
    ∀ (records : List Record) (b : Bool) (w : World),
      Quiet w (ValidateGraph.violations records b w).2 := by
  intro records
  induction records with
  | nil => intro b w; exact Quiet.refl w
  | cons r rest ih =>
    intro b w
    unfold ValidateGraph.violations
    split
    · exact Quiet.refl w
    · exact Quiet.trans (Quiet.emit _ _ (by rfl)) (ih _ _)

theorem ValidateGraph_loop_quiet (env : Env) (session : Nat) :
    ∀ (queries : List String) (i : Nat) (w : World),
      Quiet w (ValidateGraph.loop env session i queries w).2 := by
  intro queries
  induction queries with
  | nil => intro i w; exact Quiet.refl w
  | cons q rest ih =>
    intro i w
    unfold ValidateGraph.loop
    simp only
    split
    · exact Quiet.run _ _ _
    · split
      · exact Quiet.run _ _ _
      · split
        · split
          · exact (Quiet.run _ _ _).trans (ValidateGraph.violations_quiet _ _ _)
          · split
            · exact (Quiet.run _ _ _).trans (ValidateGraph.violations_quiet _ _ _)
            · exact ((Quiet.run _ _ _).trans (ValidateGraph.violations_quiet _ _ _)).trans
                (ih _ _)
        · exact (Quiet.run _ _ _).trans (ih _ _)

theorem ValidateGraph_quiet (env : Env) (s m : String) (w : World) :
    Quiet w (ValidateGraph env s m w).2 := by
  unfold ValidateGraph
  simp only
  split
  · exact (Quiet.newSession w).trans (Quiet.closeSession _ _)
  · exact ((Quiet.newSession w).trans (ValidateGraph_loop_quiet env _ _ _ _)).trans
      (Quiet.closeSession _ _)

theorem ValidateGraph_returns (env : Env) (hwt : WellTyped env) (s m : String) (w : World) :
    ∃ err, (ValidateGraph env s m w).1 = .returned err := by
  unfold ValidateGraph
  simp only
  split
  · exact ⟨_, rfl⟩
  · simp only [ValidateGraph.loop, show ((0 : Nat) == 1) = false from rfl,
      show ((1 : Nat) == 1) = true from rfl,
      show ((0 : Nat) == 2) = false from rfl, show ((1 : Nat) == 2) = false from rfl,
      show ((2 : Nat) == 1) = false from rfl, show ((2 : Nat) == 2) = true from rfl,
      Bool.false_and, Bool.true_and, Bool.false_eq_true, if_false, if_true, Nat.zero_add]
    split
    · exact ⟨_, rfl⟩
    · split
      · exact ⟨_, rfl⟩
      · split
        · exact ⟨_, rfl⟩
        · split
          · exact ⟨_, rfl⟩
          · rename_i result hrun
            have hshape := hwt.2 _ _ hrun
            rw [ValidateGraph.violations_returns _ _ _ hshape]
            simp only
            split
            · exact ⟨_, rfl⟩
            · exact ⟨_, rfl⟩

theorem InitializeDatabase_loop_quiet (env : Env) (session : Nat) :
    ∀ (queries : List String) (w : World),
      Quiet w (InitializeDatabase.loop env session queries w).2 := by
  intro queries
  induction queries with
  | nil => intro w; exact Quiet.refl w
  | cons q rest ih =>
    intro w
    unfold InitializeDatabase.loop
    simp only
    split
    · exact Quiet.run _ _ _
    · exact (Quiet.run _ _ _).trans (ih _)

theorem InitializeDatabase_quiet (env : Env) (w : World) :
    Quiet w (InitializeDatabase env w).2 :=
  ((Quiet.newSession w).trans (InitializeDatabase_loop_quiet env _ _ _)).trans
    (Quiet.closeSession _ _)

/-! ## Claims about `importRDF` -/

theorem importRDF.files_marks (env : Env) (hwt : WellTyped env) (mount : String) :
    ∀ (files : List String) (w : World),
      (importRDF.files env mount files w).1 = .returned () ∧
        ∃ evs, (importRDF.files env mount files w).2.trace = w.trace ++ evs ∧
          importMarks evs = marksFor env.path.Base files ∧ validateCalls evs = [] := by
  intro files
  induction files with
  | nil => intro w; exact ⟨rfl, [], by simp [importRDF.files], rfl, rfl⟩
  | cons file rest ih =>
    intro w
    obtain ⟨res, hres⟩ := LoadTriples_returns env hwt file mount
      (w.emit (.call "LoadTriples" file))
    obtain ⟨evs, htrace, hquiet⟩ := LoadTriples_quiet env file mount
      (w.emit (.call "LoadTriples" file))
    have hm := importMarks_quiet evs hquiet
    have hv := validateCalls_quiet evs hquiet
    have step : ∀ (entry : LogEntry),
        importMarks [Event.log entry] = [Mark.reported (env.path.Base file)] →
        validateCalls [Event.log entry] = [] →
        (importRDF.files env mount rest
            ((LoadTriples env file mount (w.emit (.call "LoadTriples" file))).2.emit
              (.log entry))).1 = .returned () ∧
          ∃ evs1, (importRDF.files env mount rest
              ((LoadTriples env file mount (w.emit (.call "LoadTriples" file))).2.emit
                (.log entry))).2.trace = w.trace ++ evs1 ∧
            importMarks evs1 = marksFor env.path.Base (file :: rest) ∧
            validateCalls evs1 = [] := by
      intro entry hentry hentryv
      obtain ⟨hret, evs1, ht1, hm1, hv1⟩ := ih
        ((LoadTriples env file mount (w.emit (.call "LoadTriples" file))).2.emit (.log entry))
      refine ⟨hret, [Event.call "LoadTriples" file] ++ evs ++ [Event.log entry] ++ evs1, ?_, ?_, ?_⟩
      · rw [ht1, World.emit_trace, htrace, World.emit_trace]
        simp only [List.append_assoc]
      · simp only [importMarks_append, hm, hm1, hentry, marksFor]
        simp [importMarks]
      · simp only [validateCalls_append, hv, hv1, hentryv]
        simp [validateCalls]
    unfold importRDF.files
    simp only
    rcases res with ⟨result, _ | err⟩
    · rw [hres]
      simp only
      split
      · exact step _ rfl rfl
      · exact step _ rfl rfl
    · rw [hres]
      exact step _ rfl rfl

theorem importRDF.validate_marks (env : Env) (hwt : WellTyped env) (c : Context) (w : World) :
    (importRDF.validate env c w).1 = .returned none ∧
      ∃ evs, (importRDF.validate env c w).2.trace = w.trace ++ evs ∧
        importMarks evs = [] ∧
        validateCalls evs = if c.schemaFile = "" then [] else [c.schemaFile] := by
  unfold importRDF.validate
  by_cases hs : c.schemaFile = ""
  · exact ⟨by simp [hs], [], by simp [hs], rfl, by simp [hs, validateCalls]⟩
  · obtain ⟨err, herr⟩ := ValidateGraph_returns env hwt c.schemaFile c.containerMount
      (w.emit (.call "ValidateGraph" c.schemaFile))
    obtain ⟨evs, htrace, hquiet⟩ := ValidateGraph_quiet env c.schemaFile c.containerMount
      (w.emit (.call "ValidateGraph" c.schemaFile))
    have hm := importMarks_quiet evs hquiet
    have hv := validateCalls_quiet evs hquiet
    simp only [hs, ne_eq, not_false_eq_true, if_true, if_false, herr]
    cases err with
    | none =>
      refine ⟨rfl, [Event.call "ValidateGraph" c.schemaFile] ++ evs ++
        [Event.log .validationPassed], ?_, ?_, ?_⟩
      · simp only [World.emit_trace, htrace, List.append_assoc]
      · simp only [importMarks_append, hm]
        simp [importMarks]
      · simp only [validateCalls_append, hv]
        simp [validateCalls]
    | some e =>
      refine ⟨rfl, [Event.call "ValidateGraph" c.schemaFile] ++ evs ++
        [Event.log (.validationFailed e)], ?_, ?_, ?_⟩
      · simp only [World.emit_trace, htrace, List.append_assoc]
      · simp only [importMarks_append, hm]
        simp [importMarks]
      · simp only [validateCalls_append, hv]
        simp [validateCalls]

theorem envTwoFiles_wellTyped : WellTyped envTwoFiles := by
  constructor
  · intro n uri result r hrun hsingle
    simp only [envTwoFiles] at hrun
    split_ifs at hrun
    · cases hrun
      cases hsingle
      exact ⟨10, rfl⟩
    · cases hrun
      cases hsingle
      exact ⟨0, rfl⟩
    · cases hrun
      cases hsingle
    · cases hrun
      cases hsingle
  · intro n result hrun r hr
    have hnone : envTwoFiles.run n validateQuery = streamOf [] := rfl
    rw [hnone] at hrun
    cases hrun
    cases hr

/-! ## Sessions of `LoadTriples` -/

@[simp] theorem openedSessions_append (a b : List Event) :
    openedSessions (a ++ b) = openedSessions a ++ openedSessions b := by
  simp [openedSessions]

@[simp] theorem closedSessions_append (a b : List Event) :
    closedSessions (a ++ b) = closedSessions a ++ closedSessions b := by
  simp [closedSessions]

theorem closedSessions_closes (d : List Nat) :
    closedSessions (d.map Event.closeSession) = d := by
  induction d with
  | nil => rfl
  | cons id rest ih =>
    have : closedSessions (Event.closeSession id :: rest.map Event.closeSession) =
        id :: closedSessions (rest.map Event.closeSession) := rfl
    rw [List.map_cons, this, ih]

theorem openedSessions_closes (d : List Nat) :
    openedSessions (d.map Event.closeSession) = [] := by
  induction d with
  | nil => rfl
  | cons id rest ih =>
    have : openedSessions (Event.closeSession id :: rest.map Event.closeSession) =
        openedSessions (rest.map Event.closeSession) := rfl
    rw [List.map_cons, this, ih]

theorem LoadTriples_loop_sessions (env : Env) (p m : String) :
    ∀ (n : Nat) (lastErr : Option Error) (d : List Nat) (w : World),
      ∃ body, (LoadTriples.loop env p m n lastErr d w).2.2.trace = w.trace ++ body ∧
        closedSessions body = [] ∧
        openedSessions body = List.range' w.sessions (openedSessions body).length ∧
        (LoadTriples.loop env p m n lastErr d w).2.2.sessions =
          w.sessions + (openedSessions body).length ∧
        (LoadTriples.loop env p m n lastErr d w).2.1 = (openedSessions body).reverse ++ d := by
  intro n
  induction n with
  | zero =>
    intro lastErr d w
    exact ⟨[], by simp [LoadTriples.loop], rfl, rfl, rfl, by simp [LoadTriples.loop, openedSessions]⟩
  | succ n ih =>
    intro lastErr d w
    have key : ∀ (l1 : Option Error) (w1 : World) (pre : List Event),
        w1.trace = w.trace ++ ([Event.newSession w.sessions] ++ pre) →
        w1.sessions = w.sessions + 1 →
        closedSessions pre = [] → openedSessions pre = [] →
        ∃ body, (LoadTriples.loop env p m n l1 (w.sessions :: d) w1).2.2.trace = w.trace ++ body ∧
          closedSessions body = [] ∧
          openedSessions body = List.range' w.sessions (openedSessions body).length ∧
          (LoadTriples.loop env p m n l1 (w.sessions :: d) w1).2.2.sessions =
            w.sessions + (openedSessions body).length ∧
          (LoadTriples.loop env p m n l1 (w.sessions :: d) w1).2.1 =
            (openedSessions body).reverse ++ d := by
      intro l1 w1 pre hw1 hs1 hc ho
      obtain ⟨body, ht, hcb, hob, hsb, hd⟩ := ih l1 (w.sessions :: d) w1
      have hopen : openedSessions ([Event.newSession w.sessions] ++ pre ++ body) =
          w.sessions :: openedSessions body := by
        simp only [openedSessions_append, ho, List.append_nil]
        rfl
      refine ⟨[Event.newSession w.sessions] ++ pre ++ body, ?_, ?_, ?_, ?_, ?_⟩
      · rw [ht, hw1]; simp only [List.append_assoc]
      · simp only [closedSessions_append, hc, hcb]; rfl
      · rw [hopen, List.length_cons, List.range'_succ]
        rw [hs1] at hob
        rw [← hob]
      · rw [hsb, hs1, hopen, List.length_cons]; omega
      · rw [hd, hopen]; simp
    have stop : ∀ (pre : List Event), closedSessions pre = [] → openedSessions pre = [] →
        closedSessions ([Event.newSession w.sessions] ++ pre) = [] ∧
          openedSessions ([Event.newSession w.sessions] ++ pre) =
            List.range' w.sessions (openedSessions ([Event.newSession w.sessions] ++ pre)).length ∧
          w.sessions + 1 =
            w.sessions + (openedSessions ([Event.newSession w.sessions] ++ pre)).length ∧
          w.sessions :: d = (openedSessions ([Event.newSession w.sessions] ++ pre)).reverse ++ d := by
      intro pre hc ho
      have hopen : openedSessions ([Event.newSession w.sessions] ++ pre) = [w.sessions] := by
        simp only [openedSessions_append, ho, List.append_nil]
        rfl
      refine ⟨?_, ?_, ?_, ?_⟩
      · simp only [closedSessions_append, hc]; rfl
      · rw [hopen]; rfl
      · rw [hopen]; rfl
      · rw [hopen]; rfl
    unfold LoadTriples.loop
    split
    · exact ⟨[Event.newSession w.sessions] ++ [], by simp, stop [] rfl rfl⟩
    · rename_i uri huri
      have hstop : ∃ body,
          (w.newSession.run w.sessions (importQuery uri)).trace = w.trace ++ body ∧
          closedSessions body = [] ∧
          openedSessions body = List.range' w.sessions (openedSessions body).length ∧
          (w.newSession.run w.sessions (importQuery uri)).sessions =
            w.sessions + (openedSessions body).length ∧
          w.sessions :: d = (openedSessions body).reverse ++ d :=
        ⟨[Event.newSession w.sessions] ++ [Event.run w.sessions (importQuery uri)],
          by simp, stop [Event.run w.sessions (importQuery uri)] rfl rfl⟩
      simp only [World.newSession_statements]
      split
      · rename_i err herr
        exact key (some err) _
          [Event.run w.sessions (importQuery uri),
            Event.log (.attemptFailed (maxRetries - (n + 1) + 1) maxRetries err), Event.sleep 1]
          (by simp) rfl rfl rfl
      · split
        · exact hstop
        · split
          · split
            · exact hstop
            · split
              · exact hstop
              · exact key lastErr _ [Event.run w.sessions (importQuery uri)] (by simp) rfl rfl rfl
          · exact hstop

/-- Every session that `LoadTriples` opens is closed exactly once, when the
function returns and in reverse order of opening: the emitted events are a
body without any close, whose opened sessions carry consecutive fresh ids,
followed by one close per opened session. -/
theorem LoadTriples_closes_every_session (env : Env) (p m : String) (w : World) :
    ∃ body, (LoadTriples env p m w).2.trace =
        w.trace ++ body ++ (openedSessions body).reverse.map Event.closeSession ∧
      closedSessions body = [] ∧
      openedSessions body = List.range' w.sessions (openedSessions body).length := by
  obtain ⟨body, ht, hc, ho, _, hd⟩ := LoadTriples_loop_sessions env p m maxRetries none [] w
  refine ⟨body, ?_, hc, ho⟩
  rw [LoadTriples_trace, ht, hd, List.append_nil]

/-! ## What `importRDF` does, file by file -/

theorem LoadTriples_loop_sessions_bounds (env : Env) (p m : String) :
    ∀ (n : Nat) (lastErr : Option Error) (d : List Nat) (w : World),
      w.sessions + min n 1 ≤ (LoadTriples.loop env p m n lastErr d w).2.2.sessions ∧
        (LoadTriples.loop env p m n lastErr d w).2.2.sessions ≤ w.sessions + n := by
  intro n
  induction n with
  | zero => intro lastErr d w; simp [LoadTriples.loop]
  | succ n ih =>
    intro lastErr d w
    have hmin : min (n + 1) 1 = 1 := by omega
    rw [hmin]
    have hrec : ∀ (l1 : Option Error) (d1 : List Nat) (w1 : World),
        w1.sessions = w.sessions + 1 →
        w.sessions + 1 ≤ (LoadTriples.loop env p m n l1 d1 w1).2.2.sessions ∧
          (LoadTriples.loop env p m n l1 d1 w1).2.2.sessions ≤ w.sessions + (n + 1) := by
      intro l1 d1 w1 h1
      have := ih l1 d1 w1
      omega
    unfold LoadTriples.loop
    split
    · simp
    · simp only [World.newSession_statements]
      split
      · exact hrec _ _ _ rfl
      · split
        · simp
        · split
          · split
            · simp
            · split
              · simp
              · exact hrec _ _ _ rfl
          · simp

theorem LoadTriples_sessions_bounds (env : Env) (p m : String) (w : World) :
    w.sessions + 1 ≤ (LoadTriples env p m w).2.sessions ∧
      (LoadTriples env p m w).2.sessions ≤ w.sessions + 3 := by
  have h := LoadTriples_loop_sessions_bounds env p m maxRetries none [] w
  simpa [LoadTriples, maxRetries] using h

theorem ImportedInOrder.sessions_bounds (env : Env) (mount : String) :
    ∀ (files : List String) (w w1 : World), ImportedInOrder env mount files w w1 →
      w.sessions + files.length ≤ w1.sessions ∧ w1.sessions ≤ w.sessions + 3 * files.length := by
  intro files
  induction files with
  | nil =>
    intro w w1 h
    have : w1 = w := h
    subst this
    simp
  | cons file rest ih =>
    intro w w1 h
    obtain ⟨res, _, hrest⟩ := h
    have hb := LoadTriples_sessions_bounds env file mount (w.emit (.call "LoadTriples" file))
    have hr := ih _ _ hrest
    simp only [World.emit_sessions, List.length_cons] at hb hr ⊢
    omega

theorem importRDF.files_inOrder (env : Env) (hwt : WellTyped env) (mount : String) :
    ∀ (files : List String) (w : World),
      (importRDF.files env mount files w).1 = .returned () ∧
        ImportedInOrder env mount files w (importRDF.files env mount files w).2 := by
  intro files
  induction files with
  | nil => intro w; exact ⟨rfl, rfl⟩
  | cons file rest ih =>
    intro w
    obtain ⟨res, hres⟩ := LoadTriples_returns env hwt file mount
      (w.emit (.call "LoadTriples" file))
    have step : importRDF.files env mount (file :: rest) w =
        importRDF.files env mount rest
          ((LoadTriples env file mount (w.emit (.call "LoadTriples" file))).2.emit
            (.log (outcomeEntry (env.path.Base file) res))) := by
      rcases res with ⟨result, _ | err⟩
      · by_cases hs : result.Success = true
        · simp only [importRDF.files, hres, outcomeEntry, hs, if_true]
        · simp only [importRDF.files, hres, outcomeEntry, hs, Bool.false_eq_true, if_false]
      · simp only [importRDF.files, hres, outcomeEntry]
    rw [step]
    exact ⟨(ih _).1, res, hres, (ih _).2⟩

theorem ValidateGraph.violations_sessions :
    ∀ (records : List Record) (b : Bool) (w : World),
      (ValidateGraph.violations records b w).2.sessions = w.sessions := by
  intro records
  induction records with
  | nil => intro b w; rfl
  | cons r rest ih =>
    intro b w
    unfold ValidateGraph.violations
    split
    · rfl
    · rw [ih]; rfl

theorem ValidateGraph_loop_sessions (env : Env) (session : Nat) :
    ∀ (queries : List String) (i : Nat) (w : World),
      (ValidateGraph.loop env session i queries w).2.sessions = w.sessions := by
  intro queries
  induction queries with
  | nil => intro i w; rfl
  | cons q rest ih =>
    intro i w
    unfold ValidateGraph.loop
    simp only
    split
    · rfl
    · split
      · rfl
      · split
        · split
          · rw [ValidateGraph.violations_sessions]; rfl
          · split
            · rw [ValidateGraph.violations_sessions]; rfl
            · rw [ih, ValidateGraph.violations_sessions]; rfl
        · rw [ih]; rfl

theorem ValidateGraph_sessions (env : Env) (s m : String) (w : World) :
    (ValidateGraph env s m w).2.sessions = w.sessions + 1 := by
  unfold ValidateGraph
  simp only
  split
  · rfl
  · simp only [World.closeSession_sessions, ValidateGraph_loop_sessions,
      World.newSession_sessions]

theorem importRDF.validate_exact (env : Env) (hwt : WellTyped env) (c : Context) (w : World) :
    (c.schemaFile = "" → importRDF.validate env c w = (.returned none, w)) ∧
      (c.schemaFile ≠ "" →
        ∃ verr,
          (ValidateGraph env c.schemaFile c.containerMount
            (w.emit (.call "ValidateGraph" c.schemaFile))).1 = .returned verr ∧
          importRDF.validate env c w =
            (.returned none,
              (ValidateGraph env c.schemaFile c.containerMount
                (w.emit (.call "ValidateGraph" c.schemaFile))).2.emit
                  (.log (validationEntry verr)))) := by
  constructor
  · intro hs
    simp [importRDF.validate, hs]
  · intro hs
    obtain ⟨verr, hverr⟩ := ValidateGraph_returns env hwt c.schemaFile c.containerMount
      (w.emit (.call "ValidateGraph" c.schemaFile))
    refine ⟨verr, hverr, ?_⟩
    unfold importRDF.validate
    rw [if_pos hs]
    simp only [hverr]
    cases verr <;> rfl

theorem importRDF_unfolds (env : Env) (c : Context) (w : World) (inputDir : String)
    (files : List String) (hwt : WellTyped env)
    (hargs : c.args = [inputDir])
    (hconn : NewRDFLoader env c.neo4jUri c.username c.password = none)
    (hinit : c.initDatabase = true →
      (InitializeDatabase env (w.emit (.call "InitializeDatabase" ""))).1 = none)
    (hglob : env.glob (env.path.Join inputDir "*.ttl") = .ok files)
    (hfiles : files ≠ []) :
    importRDF env c w =
      ((importRDF.validate env c
          (importRDF.files env c.containerMount files (worldAfterSetup env c w)).2).1,
        (importRDF.validate env c
          (importRDF.files env c.containerMount files (worldAfterSetup env c w)).2).2.emit
            .closeDriver) := by
  have hlen : ¬ files.length = 0 := fun h => hfiles (List.length_eq_zero.mp h)
  have hdisc : ∀ w0, importRDF.discover env c inputDir w0 =
      importRDF.validate env c (importRDF.files env c.containerMount files w0).2 := by
    intro w0
    have hret := (importRDF.files_inOrder env hwt c.containerMount files w0).1
    unfold importRDF.discover
    simp only [hglob, hlen, if_false, hret]
  unfold importRDF
  simp only [hargs, List.length_singleton, ne_eq, not_true_eq_false, if_false, hconn,
    List.headD_cons]
  unfold importRDF.withLoader worldAfterSetup
  by_cases hflag : c.initDatabase = true
  · rw [if_pos hflag, if_pos hflag]
    simp only [hinit hflag, hdisc]
  · rw [if_neg hflag, if_neg hflag, hdisc]

theorem worldAfterSetup_quiet (env : Env) (c : Context) (w : World) :
    Quiet w (worldAfterSetup env c w) := by
  unfold worldAfterSetup
  split
  · exact ((Quiet.emit w _ (by rfl)).trans (InitializeDatabase_quiet env _)).trans
      (Quiet.emit _ _ (by rfl))
  · exact Quiet.refl w

/-- C9: when the set-up succeeds (one argument, loader built, initialisation
skipped or successful), the discovered file list is not empty and the server's
answers are well typed, `importRDF` returns nil whatever the imports and the
validation give. The files are imported one at a time in discovery order:
each file gets one run of `LoadTriples`, in the world the earlier files left
behind, and then exactly one outcome line, the one for what that run returned;
every file opens at least one and at most three sessions. After the last file
`ValidateGraph` runs once, in one further session, when the schema path is not
empty, and its result is logged; it does not run at all otherwise. Then the
driver is closed. -/
theorem importRDF_isolates_files (env : Env) (c : Context) (w : World) (inputDir : String)
    (files : List String)
    (hwt : WellTyped env)
    (hargs : c.args = [inputDir])
    (hconn : NewRDFLoader env c.neo4jUri c.username c.password = none)
    (hinit : c.initDatabase = true →
      (InitializeDatabase env (w.emit (.call "InitializeDatabase" ""))).1 = none)
    (hglob : env.glob (env.path.Join inputDir "*.ttl") = .ok files)
    (hfiles : files ≠ []) :
    (importRDF env c w).1 = .returned none ∧
      ∃ w1,
        ImportedInOrder env c.containerMount files (worldAfterSetup env c w) w1 ∧
        (worldAfterSetup env c w).sessions + files.length ≤ w1.sessions ∧
        w1.sessions ≤ (worldAfterSetup env c w).sessions + 3 * files.length ∧
        (c.schemaFile = "" → (importRDF env c w).2 = w1.emit .closeDriver) ∧
        (c.schemaFile ≠ "" →
          ∃ verr,
            (ValidateGraph env c.schemaFile c.containerMount
              (w1.emit (.call "ValidateGraph" c.schemaFile))).1 = .returned verr ∧
            (importRDF env c w).2 =
              ((ValidateGraph env c.schemaFile c.containerMount
                (w1.emit (.call "ValidateGraph" c.schemaFile))).2.emit
                  (.log (validationEntry verr))).emit .closeDriver) ∧
        (importRDF env c w).2.sessions = w1.sessions + (if c.schemaFile = "" then 0 else 1) ∧
        ∃ evs1 evs2, w1.trace = w.trace ++ evs1 ∧
          (importRDF env c w).2.trace = w.trace ++ evs1 ++ evs2 ∧
          importMarks evs1 = marksFor env.path.Base files ∧ validateCalls evs1 = [] ∧
          importMarks evs2 = [] ∧
          validateCalls evs2 = if c.schemaFile = "" then [] else [c.schemaFile] := by
  have hun := importRDF_unfolds env c w inputDir files hwt hargs hconn hinit hglob hfiles
  obtain ⟨hret, hio⟩ :=
    importRDF.files_inOrder env hwt c.containerMount files (worldAfterSetup env c w)
  obtain ⟨_, evsF, htF, hmF, hvF⟩ :=
    importRDF.files_marks env hwt c.containerMount files (worldAfterSetup env c w)
  obtain ⟨hvret, evsV, htV, hmV, hvV⟩ := importRDF.validate_marks env hwt c
    (importRDF.files env c.containerMount files (worldAfterSetup env c w)).2
  obtain ⟨hex0, hex1⟩ := importRDF.validate_exact env hwt c
    (importRDF.files env c.containerMount files (worldAfterSetup env c w)).2
  obtain ⟨evs0, ht0, hq0⟩ := worldAfterSetup_quiet env c w
  have hb := ImportedInOrder.sessions_bounds env c.containerMount files _ _ hio
  refine ⟨by rw [hun]; exact hvret,
    (importRDF.files env c.containerMount files (worldAfterSetup env c w)).2,
    hio, hb.1, hb.2, ?_, ?_, ?_, evs0 ++ evsF, evsV ++ [Event.closeDriver], ?_, ?_, ?_, ?_, ?_, ?_⟩
  · intro hs
    rw [hun, hex0 hs]
  · intro hs
    obtain ⟨verr, hverr, hval⟩ := hex1 hs
    exact ⟨verr, hverr, by rw [hun, hval]⟩
  · by_cases hs : c.schemaFile = ""
    · rw [hun, hex0 hs, if_pos hs]; rfl
    · obtain ⟨verr, _, hval⟩ := hex1 hs
      rw [hun, hval, if_neg hs]
      simp only [World.emit_sessions, ValidateGraph_sessions]
  · rw [htF, ht0, List.append_assoc]
  · rw [hun]
    simp only [World.emit_trace, htV, htF, ht0, List.append_assoc]
  · simp only [importMarks_append, importMarks_quiet evs0 hq0, hmF, List.nil_append]
  · simp only [validateCalls_append, validateCalls_quiet evs0 hq0, hvF, List.nil_append]
  · simp only [importMarks_append, hmV]
    simp [importMarks]
  · simp only [validateCalls_append, hvV]
    simp [validateCalls]

/-- Witness of C9: `a.ttl` loads ten triples and `b.ttl` loads none. Both are
imported and reported, in order, each in one session; the validation runs
afterwards; the log and the executed statements are as listed. -/
theorem importRDF_isolates_files_witness :
    (importRDF envTwoFiles ctxTwoFiles World.init).1 = .returned none ∧
      (∃ w1,
        ImportedInOrder envTwoFiles "/uprise-outputs" ["in/a.ttl", "in/b.ttl"]
          (worldAfterSetup envTwoFiles ctxTwoFiles World.init) w1 ∧
        ∃ verr,
          (ValidateGraph envTwoFiles "shapes.ttl" "/uprise-outputs"
            (w1.emit (.call "ValidateGraph" "shapes.ttl"))).1 = .returned verr ∧
          (importRDF envTwoFiles ctxTwoFiles World.init).2 =
            ((ValidateGraph envTwoFiles "shapes.ttl" "/uprise-outputs"
              (w1.emit (.call "ValidateGraph" "shapes.ttl"))).2.emit
                (.log (validationEntry verr))).emit .closeDriver) ∧
      logLines (importRDF envTwoFiles ctxTwoFiles World.init).2.trace =
        ["Database initialized", "✅ a.ttl: 10 triples loaded",
         "❌ b.ttl: No triples loaded. Extra info: empty file", "✅ Validation passed"] ∧
      runQueries (importRDF envTwoFiles ctxTwoFiles World.init).2.trace =
        initQueries ++
          [importQuery "file:///uprise-outputs/a.ttl", importQuery "file:///uprise-outputs/b.ttl",
           dropShapesQuery, importShapesQuery "file:///uprise-outputs/shapes.ttl",
           validateQuery] ∧
      openedSessions (importRDF envTwoFiles ctxTwoFiles World.init).2.trace = [0, 1, 2, 3] := by
  have h := importRDF_isolates_files envTwoFiles ctxTwoFiles World.init "in"
    ["in/a.ttl", "in/b.ttl"] envTwoFiles_wellTyped rfl rfl (fun _ => by decide) rfl (by decide)
  obtain ⟨hret, w1, hio, _, _, _, hval, _⟩ := h
  exact ⟨hret, ⟨w1, hio, hval (by decide)⟩, by decide, by decide, by decide⟩

end RdfLoader
